import Mathlib

/-!
# zipfs/multizip.go : the dynamic mount registry

A shallow embedding of `MultiZipFs` (the registry with its three tables) and of
`zipCreateFile` (the single-use control file), followed by theorems about the
namespace operations `OpenDir`, `GetAttr`, `Unlink`, `Open`, `Create` and the
control-file operation `Write`.

Conventions of the embedding.

* Go strings and byte slices are sequences of bytes (`List (Fin 256)`).
* A Go `map[string]V` is an association list with distinct keys (`AList`).
  `m[k] = v` is `insert`, the deletion form `m[k] = zero, false` is `erase`,
  `_, ok := m[k]` is `lookup`, `len(m)` is the number of entries and
  `for k := range m` visits the keys in the order of the representation.  Go
  leaves the iteration order unspecified, so statements about listings are
  phrased through membership, counting and permutations only.
* `*MultiZipFs` is an address into a store of registries (`Heap`); methods that
  mutate the receiver take the address and the store and return the new store,
  read-only methods take the dereferenced receiver.
* The model is sequential: `sync.RWMutex` operations are no-ops and are left out.
* The archive provider `NewArchiveFileSystem` and the connector method
  `FileSystemConnector.Mount` live outside this file; they are the two fields of
  `Env`, and every call made to them is recorded in a trace.  `log.Println` is
  not recorded.
-/

namespace zipfs

/-- One byte of a Go string. -/
abbrev Byte := Fin 256

/-- Go `string` (and `[]byte`): a finite sequence of bytes. -/
abbrev GoString := List Byte

/-- Go `map[string]V`. -/
abbrev GoMap (V : Type) := AList (fun _ : GoString => V)

/-- The path separator `'/'`. -/
def Separator : Byte := 47

/-- The string `"config"`. -/
def configName : GoString := [99, 111, 110, 102, 105, 103]

/-- The constant `CONFIG_PREFIX = "config/"`. -/
def CONFIG_PREFIX : GoString := [99, 111, 110, 102, 105, 103, 47]

/-- The cutset `"\n "` handed to `strings.Trim` in `Write`. -/
def trimCutset : GoString := [10, 32]

namespace strings

/-- Go `strings.Trim(s, cutset)`: all leading, then all trailing, bytes that occur in
`cutset` are removed.  (Go trims code points; for a cutset of ASCII bytes, as here,
that is the same as trimming bytes.) -/
def Trim (s cutset : GoString) : GoString :=
  (s.dropWhile (fun b => decide (b ∈ cutset))).rdropWhile (fun b => decide (b ∈ cutset))

end strings

namespace filepath

/-- The loop of `filepath.Split`: scanning `path` downwards from position `i - 1`, the
number of bytes up to and including the last separator (`0` when there is none). -/
def splitIndex (path : GoString) : Nat → Nat
  | 0 => 0
  | i + 1 => if path.getD i 0 = Separator then i + 1 else splitIndex path i

/-- Go `filepath.Split(path)`: splits immediately after the final separator into
`(dir, file)`; without a separator `dir` is empty and `file` is `path`. -/
def Split (path : GoString) : GoString × GoString :=
  (path.take (splitIndex path path.length), path.drop (splitIndex path path.length))

/-- Go `filepath.Base(path)`: the last element of `path`, trailing separators removed
first; `"."` for the empty path and `"/"` for a path of separators only. -/
def Base (path : GoString) : GoString :=
  if path = [] then [46]
  else
    let p := path.rdropWhile (fun b => decide (b = Separator))
    let q := p.drop (splitIndex p p.length)
    if q = [] then [Separator] else q

end filepath

namespace fuse

/-- Modelled from the spec: the type `fuse.Status` of package fuse, declared outside
this file; a numeric status code. -/
abbrev Status := Int

/-- Modelled from the spec: `fuse.OK`, success (declared in package fuse). -/
def OK : Status := 0

/-- Modelled from the spec: `fuse.EPERM`, PermissionDenied (declared in package fuse;
the errno value). -/
def EPERM : Status := 1

/-- Modelled from the spec: `fuse.ENOENT`, NotFound (declared in package fuse; the
errno value). -/
def ENOENT : Status := 2

/-- Modelled from the spec: `fuse.ENOSYS`, the OperationFailed status returned when
archive construction fails (declared in package fuse; the errno value). -/
def ENOSYS : Status := 38

/-- Modelled from the spec: `fuse.S_IFDIR`, the directory bit of a mode (declared in
package fuse). -/
def S_IFDIR : Nat := 0o040000

/-- Modelled from the spec: `fuse.S_IFREG`, the regular-file bit of a mode (declared in
package fuse). -/
def S_IFREG : Nat := 0o100000

/-- Modelled from the spec: `fuse.O_ANYWRITE`, the mask of the write-intent open flags
(declared in package fuse): write-only, read-write, append, create, truncate. -/
def O_ANYWRITE : Nat := 0o3103

/-- The type `fuse.DirEntry`: one entry of a directory listing. -/
structure DirEntry where
  Mode : Nat
  Name : GoString
  deriving DecidableEq, Repr

/-- The value built by `fuse.NewReadOnlyFile(data)`: an immutable byte stream. -/
structure ReadOnlyFile where
  data : GoString
  deriving DecidableEq, Repr

/-- The constructor `fuse.NewReadOnlyFile(data)`. -/
def NewReadOnlyFile (data : GoString) : ReadOnlyFile := { data := data }

/-- Identity of a `*fuse.FileSystemConnector`. -/
structure FileSystemConnector where
  id : Nat
  deriving DecidableEq, Repr

end fuse

/-- The part of `os.FileInfo` that `GetAttr` sets; every other field stays zero. -/
structure FileInfo where
  Mode : Nat
  deriving DecidableEq, Repr

/-- Identity of a `*MemTreeFileSystem`, the filesystem handle built by the archive
provider. -/
structure MemTreeFileSystem where
  id : Nat
  deriving DecidableEq, Repr

/-- A buffered Go channel of directory entries, as seen by its producer. -/
structure Chan where
  cap : Nat
  buf : List fuse.DirEntry
  closed : Bool
  deriving DecidableEq, Repr

/-- Go `make(chan fuse.DirEntry, n)`. -/
def Chan.make (n : Nat) : Chan := { cap := n, buf := [], closed := false }

/-- Go `stream <- d` with no consumer: succeeds while the buffer has room, and blocks
for ever (`none`) when the buffer is full. -/
def Chan.send (c : Chan) (d : fuse.DirEntry) : Option Chan :=
  if c.buf.length < c.cap then some { c with buf := c.buf ++ [d] } else none

/-- Go `close(stream)`. -/
def Chan.close (c : Chan) : Chan := { c with closed := true }

/-- The struct `MultiZipFs` (lock and embedded default filesystem left out). -/
structure MultiZipFs where
  Connector : Option fuse.FileSystemConnector
  zips : GoMap MemTreeFileSystem
  pendingZips : GoMap Bool
  dirZipFileMap : GoMap GoString
  deriving DecidableEq

/-- An address of a `MultiZipFs`. -/
abbrev Ptr := Nat

/-- The store of registries: what each `*MultiZipFs` points to. -/
abbrev Heap := Ptr → MultiZipFs

/-- The struct `zipCreateFile`; `zfs = none` is the nil back-reference. -/
structure zipCreateFile where
  Basename : GoString
  zfs : Option Ptr
  deriving DecidableEq, Repr

/-- A call made to one of the two external collaborators. -/
inductive ExternalCall where
  | NewArchiveFileSystem (name : GoString)
  | ConnectorMount (connector : Option fuse.FileSystemConnector) (mountPoint : GoString)
      (fs : MemTreeFileSystem)
  deriving DecidableEq, Repr

/-- The external collaborators of one `Write`: `NewArchiveFileSystem(name)` answers
`none` for `err != nil`, and `ConnectorMount c mountPoint fs` is the status of
`c.Mount(mountPoint, fs, nil)`. -/
structure Env where
  NewArchiveFileSystem : GoString → Option MemTreeFileSystem
  ConnectorMount : Option fuse.FileSystemConnector → GoString → MemTreeFileSystem → fuse.Status

/-- Everything a call of `zipCreateFile.Write` produces: the two return values, the
receiver and the store afterwards, and the external calls made, in order. -/
structure WriteResult where
  n : Nat
  code : fuse.Status
  me : zipCreateFile
  heap : Heap
  calls : List ExternalCall

/-- The method `(*zipCreateFile).Write`. -/
def zipCreateFile.Write (env : Env) (me : zipCreateFile) (heap : Heap) (nameBytes : GoString) :
    WriteResult :=
  match me.zfs with
  | none => { n := 0, code := fuse.EPERM, me := me, heap := heap, calls := [] }
  | some p =>
    let zipFile := strings.Trim nameBytes trimCutset
    match env.NewArchiveFileSystem zipFile with
    | none =>
      { n := 0, code := fuse.ENOSYS, me := me,
        heap := Function.update heap p
          { heap p with pendingZips := (heap p).pendingZips.erase me.Basename },
        calls := [ExternalCall.NewArchiveFileSystem zipFile] }
    | some fs =>
      let mountPoint := Separator :: filepath.Base me.Basename
      let code := env.ConnectorMount (heap p).Connector mountPoint fs
      let calls := [ExternalCall.NewArchiveFileSystem zipFile,
        ExternalCall.ConnectorMount (heap p).Connector mountPoint fs]
      if code ≠ fuse.OK then
        { n := 0, code := code, me := me, heap := heap, calls := calls }
      else
        { n := nameBytes.length % 2 ^ 32, code := code, me := { me with zfs := none },
          heap := Function.update heap p
            { heap p with
              zips := (heap p).zips.insert me.Basename fs,
              dirZipFileMap := (heap p).dirZipFileMap.insert me.Basename zipFile,
              pendingZips := (heap p).pendingZips.erase me.Basename },
          calls := calls }

/-- The constructor `NewMultiZipFs`: the object it allocates. -/
def NewMultiZipFs : MultiZipFs :=
  { Connector := none, zips := ∅, pendingZips := ∅, dirZipFileMap := ∅ }

/-- The method `(*MultiZipFs).Mount`. -/
def MultiZipFs.Mount (me : Ptr) (heap : Heap) (connector : Option fuse.FileSystemConnector) :
    fuse.Status × Heap :=
  (fuse.OK, Function.update heap me { heap me with Connector := connector })

/-- The body of the two `for k := range m` loops of `OpenDir`: one entry named `k` with
mode `submode` is sent for every key, in turn. -/
def sendKeys (submode : Nat) : Chan → List GoString → Option Chan
  | stream, [] => some stream
  | stream, k :: ks =>
    (stream.send { Name := k, Mode := submode }).bind fun stream => sendKeys submode stream ks

/-- The method `(*MultiZipFs).OpenDir`, on the dereferenced receiver: the channel it
returns and the status, or `none` when a send blocks. -/
def MultiZipFs.OpenDir (me : MultiZipFs) (name : GoString) : Option (Chan × fuse.Status) :=
  let stream := Chan.make (me.pendingZips.entries.length + me.zips.entries.length + 2)
  let submode := if name = configName then fuse.S_IFREG ||| 0o600 else fuse.S_IFDIR ||| 0o700
  (sendKeys submode stream me.zips.keys).bind fun stream =>
  (sendKeys submode stream me.pendingZips.keys).bind fun stream =>
  (if name = [] then stream.send { Name := configName, Mode := fuse.S_IFDIR ||| 0o700 }
    else some stream).bind fun stream =>
  some (stream.close, fuse.OK)

/-- The method `(*MultiZipFs).GetAttr`, on the dereferenced receiver. -/
def MultiZipFs.GetAttr (me : MultiZipFs) (name : GoString) : Option FileInfo × fuse.Status :=
  if name = [] then (some { Mode := fuse.S_IFDIR ||| 0o500 }, fuse.OK)
  else if name = configName then (some { Mode := fuse.S_IFDIR ||| 0o700 }, fuse.OK)
  else
    let dir := (filepath.Split name).1
    let base := (filepath.Split name).2
    if dir ≠ [] ∧ dir ≠ CONFIG_PREFIX then (none, fuse.ENOENT)
    else
      let submode := if dir = CONFIG_PREFIX then fuse.S_IFREG ||| 0o600 else fuse.S_IFDIR ||| 0o700
      if (me.zips.lookup base).isSome then (some { Mode := submode }, fuse.OK)
      else if (me.pendingZips.lookup base).isSome then (some { Mode := submode }, fuse.OK)
      else (none, fuse.ENOENT)

/-- The method `(*MultiZipFs).Unlink`. -/
def MultiZipFs.Unlink (me : Ptr) (heap : Heap) (name : GoString) : fuse.Status × Heap :=
  let dir := (filepath.Split name).1
  let basename := (filepath.Split name).2
  if dir = CONFIG_PREFIX then
    if ((heap me).zips.lookup basename).isSome then
      (fuse.OK, Function.update heap me
        { heap me with
          zips := (heap me).zips.erase basename,
          dirZipFileMap := (heap me).dirZipFileMap.erase basename })
    else (fuse.ENOENT, heap)
  else (fuse.EPERM, heap)

/-- The method `(*MultiZipFs).Open`, on the dereferenced receiver. -/
def MultiZipFs.Open (me : MultiZipFs) (name : GoString) (flags : Nat) :
    Option fuse.ReadOnlyFile × fuse.Status :=
  if 0 ≠ flags &&& fuse.O_ANYWRITE then (none, fuse.EPERM)
  else
    let dir := (filepath.Split name).1
    let basename := (filepath.Split name).2
    if dir = CONFIG_PREFIX then
      match me.dirZipFileMap.lookup basename with
      | none => (none, fuse.ENOENT)
      | some orig => (some (fuse.NewReadOnlyFile orig), fuse.OK)
    else (none, fuse.ENOENT)

/-- The method `(*MultiZipFs).Create`. -/
def MultiZipFs.Create (me : Ptr) (heap : Heap) (name : GoString) (_flags _mode : Nat) :
    (Option zipCreateFile × fuse.Status) × Heap :=
  let dir := (filepath.Split name).1
  let base := (filepath.Split name).2
  if dir ≠ CONFIG_PREFIX then ((none, fuse.EPERM), heap)
  else
    let z : zipCreateFile := { Basename := base, zfs := some me }
    ((some z, fuse.OK), Function.update heap me
      { heap me with pendingZips := (heap me).pendingZips.insert z.Basename true })

/-! ### Concrete inputs used to evaluate the operations -/

/-- An environment in which every archive is built (as handle 7) and every mount is
accepted. -/
def envAccept : Env :=
  { NewArchiveFileSystem := fun _ => some { id := 7 }, ConnectorMount := fun _ _ _ => fuse.OK }

/-- An environment in which no archive can be built. -/
def envNoArchive : Env :=
  { NewArchiveFileSystem := fun _ => none, ConnectorMount := fun _ _ _ => fuse.OK }

/-- An environment in which every archive is built (as handle 7) and the connector
refuses every mount with status 5 (EIO). -/
def envRefuse : Env :=
  { NewArchiveFileSystem := fun _ => some { id := 7 }, ConnectorMount := fun _ _ _ => 5 }

/-- A store in which every registry is freshly constructed. -/
def emptyHeap : Heap := fun _ => NewMultiZipFs

/-- The name `"photos"`. -/
def photos : GoString := [112, 104, 111, 116, 111, 115]

/-- The payload `"/data/photos.zip\n"`. -/
def photosPayload : GoString :=
  [47, 100, 97, 116, 97, 47, 112, 104, 111, 116, 111, 115, 46, 122, 105, 112, 10]

/-- The path `"/data/photos.zip"`. -/
def photosZip : GoString :=
  [47, 100, 97, 116, 97, 47, 112, 104, 111, 116, 111, 115, 46, 122, 105, 112]

/-- The request that `Create("config/photos")` returns on the registry at address 0. -/
def photosRequest : zipCreateFile := { Basename := photos, zfs := some 0 }

/-- The store after `Create("config/photos")` on the fresh registry at address 0. -/
def photosPendingHeap : Heap :=
  (MultiZipFs.Create 0 emptyHeap (CONFIG_PREFIX ++ photos) 0 0).2

/-- The store after `Create("config/photos")` and a committed `Write` of the photos
payload on the fresh registry at address 0: `photos` is mounted. -/
def photosMountedHeap : Heap :=
  (photosRequest.Write envAccept photosPendingHeap photosPayload).heap

/-- The store after a second `Create("config/photos")` on the registry in which `photos`
is mounted. -/
def photosRecreatedHeap : Heap :=
  (MultiZipFs.Create 0 photosMountedHeap (CONFIG_PREFIX ++ photos) 0 0).2

/-- The request that `Create("config/config")` returns on the registry at address 0. -/
def configRequest : zipCreateFile := { Basename := configName, zfs := some 0 }

/-- The store after `Create("config/config")` on the fresh registry at address 0. -/
def configPendingHeap : Heap :=
  (MultiZipFs.Create 0 emptyHeap (CONFIG_PREFIX ++ configName) 0 0).2

/-- The store after `Create("config/config")` and a committed `Write` on the fresh
registry at address 0: the name `config` is mounted. -/
def configMountedHeap : Heap :=
  (configRequest.Write envAccept configPendingHeap photosPayload).heap

/-- The path `"other/path"`, outside the control directory. -/
def otherPath : GoString := [111, 116, 104, 101, 114, 47, 112, 97, 116, 104]

/-- The white space of the spec's words, a second definition to compare the cutset of
`Write` with: the ASCII white-space bytes tab, line feed, vertical tab, form feed,
carriage return and space. -/
def specWhitespace : GoString := [9, 10, 11, 12, 13, 32]

/-- The payload `"\t/data/photos.zip\r\n"`. -/
def tabbedPayload : GoString := 9 :: (photosZip ++ [13, 10])

/-! ### Sequential runs -/

/-- The state of a sequential run: the store, and the control files handed out by
`Create` so far, in order. -/
structure World where
  heap : Heap
  files : List zipCreateFile

/-- One operation of a sequential client; `Write` names the control file it writes to
by its position among the files handed out, and carries the behaviour of the external
collaborators during that write. -/
inductive Op where
  | Mount (p : Ptr) (connector : Option fuse.FileSystemConnector)
  | Create (p : Ptr) (name : GoString) (flags mode : Nat)
  | Write (env : Env) (file : Nat) (nameBytes : GoString)
  | Unlink (p : Ptr) (name : GoString)
  | Open (p : Ptr) (name : GoString) (flags : Nat)
  | GetAttr (p : Ptr) (name : GoString)
  | OpenDir (p : Ptr) (name : GoString)

/-- The effect of one operation on the state of the run.  `Open`, `GetAttr` and
`OpenDir` assign to nothing; a `Write` to a file that was never handed out does not
happen. -/
def World.step (w : World) : Op → World
  | Op.Mount p connector => { w with heap := (MultiZipFs.Mount p w.heap connector).2 }
  | Op.Create p name flags mode =>
    match (MultiZipFs.Create p w.heap name flags mode).1.1 with
    | some z =>
      { heap := (MultiZipFs.Create p w.heap name flags mode).2, files := w.files ++ [z] }
    | none => { w with heap := (MultiZipFs.Create p w.heap name flags mode).2 }
  | Op.Write env file nameBytes =>
    match w.files.get? file with
    | some me =>
      { heap := (me.Write env w.heap nameBytes).heap,
        files := w.files.set file (me.Write env w.heap nameBytes).me }
    | none => w
  | Op.Unlink p name => { w with heap := (MultiZipFs.Unlink p w.heap name).2 }
  | Op.Open _ _ _ => w
  | Op.GetAttr _ _ => w
  | Op.OpenDir _ _ => w

/-- The state after a sequence of operations. -/
def World.run (w : World) : List Op → World
  | [] => w
  | op :: ops => World.run (w.step op) ops

/-- The state in which every registry is freshly constructed and no control file has
been handed out. -/
def World.fresh : World := { heap := emptyHeap, files := [] }

/-- Whether the operation, if it is a `Create` under the control directory, creates a
name that is not mounted in the state `w`. -/
def Op.createsUnmounted (w : World) : Op → Bool
  | Op.Create p name _ _ =>
    decide ((filepath.Split name).1 ≠ CONFIG_PREFIX)
      || !((w.heap p).zips.lookup (filepath.Split name).2).isSome
  | _ => true

/-- Whether every `Create` of the sequence, run from `w`, creates a name that is not
mounted at that moment. -/
def World.createsUnmounted : World → List Op → Bool
  | _, [] => true
  | w, op :: ops => op.createsUnmounted w && World.createsUnmounted (w.step op) ops

/-- The run that mounts `photos` and then creates `config/photos` once more. -/
def remountRun : List Op :=
  [Op.Create 0 (CONFIG_PREFIX ++ photos) 0 0, Op.Write envAccept 0 photosPayload,
    Op.Create 0 (CONFIG_PREFIX ++ photos) 0 0]

/-- The run that mounts `photos`, unlinks it, and only then creates `config/photos`
again, with a failed and a refused write in between. -/
def unlinkRun : List Op :=
  [Op.Create 0 (CONFIG_PREFIX ++ photos) 0 0, Op.Write envNoArchive 0 photosPayload,
    Op.Write envRefuse 0 photosPayload, Op.Write envAccept 0 photosPayload,
    Op.Unlink 0 (CONFIG_PREFIX ++ photos), Op.Create 0 (CONFIG_PREFIX ++ photos) 0 0]

end zipfs

/-! ## Auxiliary facts about the string helpers -/

namespace zipfs

open fuse

/-- Scanning a separator-free tail does not stop: the loop of `Split` started anywhere
inside the tail `f` of `p ++ f` continues down to the end of `p`. -/
theorem splitIndex_append_tail (p f : GoString) (hf : Separator ∉ f) (j : Nat)
    (hj : j ≤ f.length) :
    filepath.splitIndex (p ++ f) (p.length + j) = filepath.splitIndex (p ++ f) p.length := by
  induction j with
  | zero => rfl
  | succ j ih =>
    have hlt : j < f.length := hj
    have hne : (p ++ f).getD (p.length + j) 0 ≠ Separator := by
      rw [List.getD_append_right _ _ _ _ (Nat.le_add_right _ _), Nat.add_sub_cancel_left,
        List.getD_eq_getElem _ _ hlt]
      intro h
      exact hf (h ▸ List.getElem_mem _)
    show filepath.splitIndex (p ++ f) (p.length + j + 1) = _
    rw [filepath.splitIndex, if_neg hne]
    exact ih (Nat.le_of_lt hlt)

/-- A path without separator splits into the empty directory and itself. -/
theorem Split_of_not_mem (f : GoString) (hf : Separator ∉ f) : filepath.Split f = ([], f) := by
  have h := splitIndex_append_tail [] f hf f.length (Nat.le_refl _)
  simp only [List.nil_append, List.length_nil, Nat.zero_add] at h
  have h0 : filepath.splitIndex f 0 = 0 := rfl
  rw [h0] at h
  simp [filepath.Split, h]

/-- A path `d ++ "/" ++ f` with `f` free of separators splits right after that
separator. -/
theorem Split_append_sep (d f : GoString) (hf : Separator ∉ f) :
    filepath.Split (d ++ [Separator] ++ f) = (d ++ [Separator], f) := by
  have h := splitIndex_append_tail (d ++ [Separator]) f hf f.length (Nat.le_refl _)
  have h1 : filepath.splitIndex (d ++ [Separator] ++ f) (d ++ [Separator]).length
      = d.length + 1 := by
    have hl : (d ++ [Separator]).length = d.length + 1 := by simp
    rw [hl, filepath.splitIndex]
    have : (d ++ [Separator] ++ f).getD d.length 0 = Separator := by
      rw [List.append_assoc, List.getD_append_right _ _ _ _ (Nat.le_refl _)]
      simp
    rw [if_pos this]
  have hlen : (d ++ [Separator] ++ f).length = (d ++ [Separator]).length + f.length :=
    List.length_append _ _
  have hl : (d ++ [Separator]).length = d.length + 1 := by simp
  unfold filepath.Split
  rw [hlen, h, h1, ← hl, List.take_left, List.drop_left]

/-- The control path `"config/" ++ name` of a separator-free `name` splits into the
control directory and `name`. -/
theorem Split_config (name : GoString) (hn : Separator ∉ name) :
    filepath.Split (CONFIG_PREFIX ++ name) = (CONFIG_PREFIX, name) :=
  Split_append_sep configName name hn

/-! ## Auxiliary facts about listings -/

/-- While the buffer has room for all of them, the loop sends one entry per key, in
order, and never blocks. -/
theorem sendKeys_eq (m : Nat) (ks : List GoString) (c : Chan)
    (h : c.buf.length + ks.length ≤ c.cap) :
    sendKeys m c ks
      = some { c with buf := c.buf ++ ks.map (fun k => ({ Name := k, Mode := m } : DirEntry)) } := by
  induction ks generalizing c with
  | nil => simp [sendKeys]
  | cons k ks ih =>
    have hlt : c.buf.length < c.cap := by
      simp only [List.length_cons] at h
      omega
    have hroom : (c.buf ++ [({ Name := k, Mode := m } : DirEntry)]).length + ks.length ≤ c.cap := by
      simp only [List.length_append, List.length_cons, List.length_nil] at h ⊢
      omega
    simp only [sendKeys, Chan.send, if_pos hlt, Option.some_bind]
    rw [ih _ hroom]
    simp

/-- No send of `OpenDir` blocks, and the channel it returns holds one entry per key of
`zips`, one per key of `pendingZips` and, for the root, the entry `config`. -/
theorem OpenDir_eq (me : MultiZipFs) (name : GoString) :
    me.OpenDir name = some
      ({ cap := me.pendingZips.entries.length + me.zips.entries.length + 2,
         buf :=
          me.zips.keys.map (fun k => ({ Name := k, Mode :=
              if name = configName then S_IFREG ||| 0o600 else S_IFDIR ||| 0o700 } : DirEntry))
          ++ me.pendingZips.keys.map (fun k => ({ Name := k, Mode :=
              if name = configName then S_IFREG ||| 0o600 else S_IFDIR ||| 0o700 } : DirEntry))
          ++ (if name = [] then [({ Name := configName, Mode := S_IFDIR ||| 0o700 } : DirEntry)]
              else []),
         closed := true }, OK) := by
  have hz : me.zips.keys.length = me.zips.entries.length := by
    simp [AList.keys, List.keys]
  have hp : me.pendingZips.keys.length = me.pendingZips.entries.length := by
    simp [AList.keys, List.keys]
  unfold MultiZipFs.OpenDir
  simp only []
  rw [sendKeys_eq _ _ _ (by simp only [Chan.make, List.length_nil]; omega)]
  simp only [Option.some_bind]
  rw [sendKeys_eq _ _ _ (by
    simp only [Chan.make, List.length_nil, List.nil_append, List.length_map]; omega)]
  simp only [Option.some_bind]
  by_cases hn : name = []
  · have hlt : (me.zips.keys.map (fun k => ({ Name := k, Mode :=
          if name = configName then S_IFREG ||| 0o600 else S_IFDIR ||| 0o700 } : DirEntry))
        ++ me.pendingZips.keys.map (fun k => ({ Name := k, Mode :=
          if name = configName then S_IFREG ||| 0o600 else S_IFDIR ||| 0o700 } : DirEntry))).length
        < me.pendingZips.entries.length + me.zips.entries.length + 2 := by
      simp only [List.length_append, List.length_map]; omega
    simp only [Chan.make, List.nil_append] at hlt ⊢
    simp only [if_pos hn, Chan.send, if_pos hlt, Option.some_bind, Chan.close]
  · simp only [if_neg hn, Option.some_bind, Chan.close, Chan.make, List.nil_append,
      List.append_nil]

/-! ## The four paths through `Write` -/

/-- The path of `Write` for a nil back-reference. -/
theorem Write_nil (env : Env) (me : zipCreateFile) (heap : Heap) (nameBytes : GoString)
    (hz : me.zfs = none) :
    me.Write env heap nameBytes
      = { n := 0, code := EPERM, me := me, heap := heap, calls := [] } := by
  simp [zipCreateFile.Write, hz]

/-- The path of `Write` on which the archive provider fails. -/
theorem Write_provider_fails (env : Env) (me : zipCreateFile) (heap : Heap)
    (nameBytes : GoString) (p : Ptr) (hz : me.zfs = some p)
    (hprov : env.NewArchiveFileSystem (strings.Trim nameBytes trimCutset) = none) :
    me.Write env heap nameBytes
      = { n := 0, code := ENOSYS, me := me,
          heap := Function.update heap p
            { heap p with pendingZips := (heap p).pendingZips.erase me.Basename },
          calls := [ExternalCall.NewArchiveFileSystem (strings.Trim nameBytes trimCutset)] } := by
  simp [zipCreateFile.Write, hz, hprov]

/-- The path of `Write` on which the connector refuses the mount. -/
theorem Write_attach_fails (env : Env) (me : zipCreateFile) (heap : Heap)
    (nameBytes : GoString) (p : Ptr) (fs : MemTreeFileSystem) (hz : me.zfs = some p)
    (hprov : env.NewArchiveFileSystem (strings.Trim nameBytes trimCutset) = some fs)
    (hconn : env.ConnectorMount (heap p).Connector (Separator :: filepath.Base me.Basename) fs
      ≠ OK) :
    me.Write env heap nameBytes
      = { n := 0,
          code := env.ConnectorMount (heap p).Connector (Separator :: filepath.Base me.Basename) fs,
          me := me, heap := heap,
          calls := [ExternalCall.NewArchiveFileSystem (strings.Trim nameBytes trimCutset),
            ExternalCall.ConnectorMount (heap p).Connector
              (Separator :: filepath.Base me.Basename) fs] } := by
  simp [zipCreateFile.Write, hz, hprov, hconn]

/-- The path of `Write` on which the mount is committed. -/
theorem Write_commits (env : Env) (me : zipCreateFile) (heap : Heap)
    (nameBytes : GoString) (p : Ptr) (fs : MemTreeFileSystem) (hz : me.zfs = some p)
    (hprov : env.NewArchiveFileSystem (strings.Trim nameBytes trimCutset) = some fs)
    (hconn : env.ConnectorMount (heap p).Connector (Separator :: filepath.Base me.Basename) fs
      = OK) :
    me.Write env heap nameBytes
      = { n := nameBytes.length % 2 ^ 32, code := OK, me := { me with zfs := none },
          heap := Function.update heap p
            { heap p with
              zips := (heap p).zips.insert me.Basename fs,
              dirZipFileMap :=
                (heap p).dirZipFileMap.insert me.Basename (strings.Trim nameBytes trimCutset),
              pendingZips := (heap p).pendingZips.erase me.Basename },
          calls := [ExternalCall.NewArchiveFileSystem (strings.Trim nameBytes trimCutset),
            ExternalCall.ConnectorMount (heap p).Connector
              (Separator :: filepath.Base me.Basename) fs] } := by
  simp [zipCreateFile.Write, hz, hprov, hconn]

/-- The path of `Create` under the control directory. -/
theorem Create_config (p : Ptr) (heap : Heap) (name : GoString) (flags mode : Nat)
    (hsep : Separator ∉ name) :
    MultiZipFs.Create p heap (CONFIG_PREFIX ++ name) flags mode
      = ((some { Basename := name, zfs := some p }, OK),
          Function.update heap p
            { heap p with pendingZips := (heap p).pendingZips.insert name true }) := by
  simp [MultiZipFs.Create, Split_config name hsep]

/-! ## The claims -/

/-- C1: for every registry state, every valid name (non-empty, without separator) that
is not mounted and every payload, if `Create("config/<name>")` is followed by
`Write(payload)` on the returned request, the archive provider succeeding and the
connector answering OK, then `OpenDir("")` holds an entry named `<name>` with mode
`S_IFDIR|0700`, and `Open("config/<name>")` with read-only flags returns OK with a
read-only file whose content is exactly the trimmed payload. -/
theorem C1_create_write_then_listed_and_readable (env : Env) (heap : Heap) (p : Ptr)
    (name nameBytes : GoString) (flags mode oflags : Nat) (fs : MemTreeFileSystem)
    (hne : name ≠ []) (hsep : Separator ∉ name)
    (hnm : (heap p).zips.lookup name = none)
    (hprov : env.NewArchiveFileSystem (strings.Trim nameBytes trimCutset) = some fs)
    (hconn : env.ConnectorMount (heap p).Connector (Separator :: filepath.Base name) fs = OK)
    (hro : oflags &&& O_ANYWRITE = 0) :
    ∃ z heap1,
      MultiZipFs.Create p heap (CONFIG_PREFIX ++ name) flags mode = ((some z, OK), heap1) ∧
      (z.Write env heap1 nameBytes).code = OK ∧
      (∃ stream, ((z.Write env heap1 nameBytes).heap p).OpenDir [] = some (stream, OK) ∧
        stream.closed = true ∧
        ({ Name := name, Mode := S_IFDIR ||| 0o700 } : DirEntry) ∈ stream.buf) ∧
      ((z.Write env heap1 nameBytes).heap p).Open (CONFIG_PREFIX ++ name) oflags
        = (some (NewReadOnlyFile (strings.Trim nameBytes trimCutset)), OK) := by
  have _ := hne
  have _ := hnm
  refine ⟨_, _, Create_config p heap name flags mode hsep, ?_⟩
  have hw := Write_commits env { Basename := name, zfs := some p }
    (Function.update heap p
      { heap p with pendingZips := (heap p).pendingZips.insert name true })
    nameBytes p fs rfl hprov (by simpa using hconn)
  rw [hw]
  refine ⟨rfl, ⟨_, OpenDir_eq _ _, rfl, ?_⟩, ?_⟩
  · have hcfg : ([] : GoString) ≠ configName := by decide
    simp [hcfg]
  · unfold MultiZipFs.Open
    rw [Split_config name hsep]
    simp [hro]

/-- C1 at the scenario of the photos archive, from the freshly constructed registry. -/
theorem C1_create_write_then_listed_and_readable_witness :
    photos ≠ [] ∧ Separator ∉ photos ∧
    (emptyHeap 0).zips.lookup photos = none ∧
    envAccept.NewArchiveFileSystem (strings.Trim photosPayload trimCutset) = some { id := 7 } ∧
    envAccept.ConnectorMount (emptyHeap 0).Connector (Separator :: filepath.Base photos)
      { id := 7 } = OK ∧
    (0 : Nat) &&& O_ANYWRITE = 0 ∧
    ∃ z heap1,
      MultiZipFs.Create 0 emptyHeap (CONFIG_PREFIX ++ photos) 0 0 = ((some z, OK), heap1) ∧
      (z.Write envAccept heap1 photosPayload).code = OK ∧
      (∃ stream, ((z.Write envAccept heap1 photosPayload).heap 0).OpenDir []
          = some (stream, OK) ∧
        stream.closed = true ∧
        ({ Name := photos, Mode := S_IFDIR ||| 0o700 } : DirEntry) ∈ stream.buf) ∧
      ((z.Write envAccept heap1 photosPayload).heap 0).Open (CONFIG_PREFIX ++ photos) 0
        = (some (NewReadOnlyFile (strings.Trim photosPayload trimCutset)), OK) :=
  ⟨by decide, by decide, by decide, by decide, by decide, by decide,
    C1_create_write_then_listed_and_readable envAccept emptyHeap 0 photos photosPayload 0 0 0
      { id := 7 } (by decide) (by decide) (by decide) (by decide) (by decide) (by decide)⟩

/-- C2: for every Armed request with basename `<name>` and every payload, when the
archive provider succeeds with handle `h` and the connector returns OK, `Write` returns
the length of the untrimmed payload as a uint32 together with OK, and afterwards the
registry has `zips[<name>] = h`, the trimmed payload as recorded source path of
`<name>`, no pending marker for `<name>`, and the entries of every other name in all
three tables as before (the request is Consumed and no other registry is touched). -/
theorem C2_write_commit_updates_registry (env : Env) (me : zipCreateFile) (heap : Heap)
    (nameBytes : GoString) (p : Ptr) (h : MemTreeFileSystem)
    (harmed : me.zfs = some p)
    (hprov : env.NewArchiveFileSystem (strings.Trim nameBytes trimCutset) = some h)
    (hconn : env.ConnectorMount (heap p).Connector (Separator :: filepath.Base me.Basename) h
      = OK) :
    (me.Write env heap nameBytes).n = nameBytes.length % 2 ^ 32 ∧
    (nameBytes.length < 2 ^ 32 → (me.Write env heap nameBytes).n = nameBytes.length) ∧
    (me.Write env heap nameBytes).code = OK ∧
    (me.Write env heap nameBytes).me.zfs = none ∧
    ((me.Write env heap nameBytes).heap p).zips.lookup me.Basename = some h ∧
    ((me.Write env heap nameBytes).heap p).dirZipFileMap.lookup me.Basename
      = some (strings.Trim nameBytes trimCutset) ∧
    ((me.Write env heap nameBytes).heap p).pendingZips.lookup me.Basename = none ∧
    (∀ k : GoString, k ≠ me.Basename →
      ((me.Write env heap nameBytes).heap p).zips.lookup k = (heap p).zips.lookup k ∧
      ((me.Write env heap nameBytes).heap p).dirZipFileMap.lookup k
        = (heap p).dirZipFileMap.lookup k ∧
      ((me.Write env heap nameBytes).heap p).pendingZips.lookup k
        = (heap p).pendingZips.lookup k) ∧
    (∀ q : Ptr, q ≠ p → (me.Write env heap nameBytes).heap q = heap q) := by
  rw [Write_commits env me heap nameBytes p h harmed hprov hconn]
  refine ⟨rfl, fun hlt => Nat.mod_eq_of_lt hlt, rfl, rfl, ?_, ?_, ?_, ?_, ?_⟩
  · simp
  · simp
  · simp
  · intro k hk
    simp [AList.lookup_insert_ne hk, AList.lookup_erase_ne hk]
  · intro q hq
    simp [Function.update_noteq hq]

/-- C2 at the scenario of the photos archive: the write of the 17 payload bytes. -/
theorem C2_write_commit_updates_registry_witness :
    photosRequest.zfs = some 0 ∧
    envAccept.NewArchiveFileSystem (strings.Trim photosPayload trimCutset) = some { id := 7 } ∧
    envAccept.ConnectorMount (photosPendingHeap 0).Connector
      (Separator :: filepath.Base photosRequest.Basename) { id := 7 } = OK ∧
    (photosRequest.Write envAccept photosPendingHeap photosPayload).n = 17 ∧
    (photosRequest.Write envAccept photosPendingHeap photosPayload).code = OK ∧
    ((photosRequest.Write envAccept photosPendingHeap photosPayload).heap 0).zips.lookup photos
      = some { id := 7 } ∧
    ((photosRequest.Write envAccept photosPendingHeap photosPayload).heap 0).dirZipFileMap.lookup
      photos = some photosZip ∧
    ((photosRequest.Write envAccept photosPendingHeap photosPayload).heap 0).pendingZips.lookup
      photos = none :=
  have t := C2_write_commit_updates_registry envAccept photosRequest photosPendingHeap
    photosPayload 0 { id := 7 } (by decide) (by decide) (by decide)
  ⟨by decide, by decide, by decide, t.1, t.2.2.1, t.2.2.2.2.1, t.2.2.2.2.2.1, t.2.2.2.2.2.2.1⟩

/-- C3: for every Armed request with basename `<name>` and every payload for which the
archive provider fails, `Write` returns 0 bytes with status ENOSYS, `<name>` is removed
from `pendingZips`, nothing is added to the mounts (`zips` and `dirZipFileMap` are
unchanged), and the connector is never asked to attach anything. -/
theorem C3_write_construction_failure (env : Env) (me : zipCreateFile) (heap : Heap)
    (nameBytes : GoString) (p : Ptr)
    (harmed : me.zfs = some p)
    (hprov : env.NewArchiveFileSystem (strings.Trim nameBytes trimCutset) = none) :
    (me.Write env heap nameBytes).n = 0 ∧
    (me.Write env heap nameBytes).code = ENOSYS ∧
    ((me.Write env heap nameBytes).heap p).pendingZips.lookup me.Basename = none ∧
    ((me.Write env heap nameBytes).heap p).zips = (heap p).zips ∧
    ((me.Write env heap nameBytes).heap p).dirZipFileMap = (heap p).dirZipFileMap ∧
    (me.Write env heap nameBytes).calls
      = [ExternalCall.NewArchiveFileSystem (strings.Trim nameBytes trimCutset)] ∧
    (∀ c mountPoint fs,
      ExternalCall.ConnectorMount c mountPoint fs ∉ (me.Write env heap nameBytes).calls) := by
  rw [Write_provider_fails env me heap nameBytes p harmed hprov]
  refine ⟨rfl, rfl, ?_, ?_, ?_, rfl, ?_⟩
  · simp
  · simp
  · simp
  · intro c mountPoint fs
    simp

/-- C3 at the photos request, with a provider that builds nothing. -/
theorem C3_write_construction_failure_witness :
    photosRequest.zfs = some 0 ∧
    envNoArchive.NewArchiveFileSystem (strings.Trim photosPayload trimCutset) = none ∧
    (photosRequest.Write envNoArchive photosPendingHeap photosPayload).n = 0 ∧
    (photosRequest.Write envNoArchive photosPendingHeap photosPayload).code = ENOSYS ∧
    ((photosRequest.Write envNoArchive photosPendingHeap photosPayload).heap 0).pendingZips.lookup
      photos = none ∧
    (photosRequest.Write envNoArchive photosPendingHeap photosPayload).calls
      = [ExternalCall.NewArchiveFileSystem photosZip] :=
  have t := C3_write_construction_failure envNoArchive photosRequest photosPendingHeap
    photosPayload 0 (by decide) (by decide)
  ⟨by decide, by decide, t.1, t.2.1, t.2.2.1, t.2.2.2.2.2.1⟩

/-- The entry names of a listing produced by `OpenDir`, for any directory, are the keys
of `zips`, the keys of `pendingZips`, and `config` when the directory is the root. -/
theorem OpenDir_names (me : MultiZipFs) (dir : GoString) (stream : Chan) (code : Status)
    (h : me.OpenDir dir = some (stream, code)) (d : DirEntry) (hd : d ∈ stream.buf) :
    (me.zips.lookup d.Name).isSome = true ∨ (me.pendingZips.lookup d.Name).isSome = true ∨
      (dir = [] ∧ d.Name = configName) := by
  rw [OpenDir_eq] at h
  injection h with h
  injection h with h _
  subst h
  simp only [List.mem_append, List.mem_map] at hd
  rcases hd with (⟨k, hk, rfl⟩ | ⟨k, hk, rfl⟩) | hd
  · exact Or.inl (AList.lookup_isSome.mpr (AList.mem_keys.mpr hk))
  · exact Or.inr (Or.inl (AList.lookup_isSome.mpr (AList.mem_keys.mpr hk)))
  · by_cases hn : dir = []
    · rw [if_pos hn] at hd
      simp only [List.mem_singleton] at hd
      subst hd
      exact Or.inr (Or.inr ⟨hn, rfl⟩)
    · rw [if_neg hn] at hd
      cases hd

/-- C4, as stated, fails: from the fresh registry, after `photos` has been mounted, a
new `Create("config/photos")` followed by a `Write` whose archive construction fails
(status ENOSYS) leaves `photos` listed, both in the root and in the control directory.
Likewise `Create("config/config")` on the fresh registry followed by such a `Write`
leaves an entry named `config` in the root listing, the synthetic one. -/
theorem C4_counterexample :
    (MultiZipFs.Create 0 emptyHeap (CONFIG_PREFIX ++ configName) 0 0).1
      = (some configRequest, OK) ∧
    (configRequest.Write envNoArchive configPendingHeap photosPayload).code = ENOSYS ∧
    ((configRequest.Write envNoArchive configPendingHeap photosPayload).heap 0).OpenDir []
      = some ({ cap := 2, buf := [{ Name := configName, Mode := S_IFDIR ||| 0o700 }],
                closed := true }, OK) ∧
    MultiZipFs.Create 0 photosMountedHeap (CONFIG_PREFIX ++ photos) 0 0
      = ((some photosRequest, OK), photosRecreatedHeap) ∧
    (photosRequest.Write envNoArchive photosRecreatedHeap photosPayload).code = ENOSYS ∧
    ((photosRequest.Write envNoArchive photosRecreatedHeap photosPayload).heap 0).OpenDir []
      = some ({ cap := 3,
                buf := [{ Name := photos, Mode := S_IFDIR ||| 0o700 },
                        { Name := configName, Mode := S_IFDIR ||| 0o700 }],
                closed := true }, OK) ∧
    ((photosRequest.Write envNoArchive photosRecreatedHeap photosPayload).heap 0).OpenDir
        configName
      = some ({ cap := 3, buf := [{ Name := photos, Mode := S_IFREG ||| 0o600 }],
                closed := true }, OK) := by
  refine ⟨?_, ?_, ?_, ?_, ?_, ?_, ?_⟩
  · decide
  · decide
  · decide
  · exact (Create_config 0 photosMountedHeap photos 0 0 (by decide))
  · decide
  · decide
  · decide

/-- C4, amended: for every registry state in which the separator-free `<name>` is not
mounted, `Create("config/<name>")` returns a request, and after a `Write` on it whose
archive construction fails no listing of any directory has an entry named `<name>`,
except the synthetic root entry when `<name>` is `config`; the root and control
listings exist, and when the tables were empty the root listing is exactly `config`. -/
theorem C4_failed_write_unlists_unmounted_name (env : Env) (heap : Heap) (p : Ptr)
    (name nameBytes : GoString) (flags mode : Nat)
    (hsep : Separator ∉ name)
    (hnm : (heap p).zips.lookup name = none)
    (hprov : env.NewArchiveFileSystem (strings.Trim nameBytes trimCutset) = none) :
    ∃ z heap1,
      MultiZipFs.Create p heap (CONFIG_PREFIX ++ name) flags mode = ((some z, OK), heap1) ∧
      (z.Write env heap1 nameBytes).code = ENOSYS ∧
      (∀ dir stream code, ((z.Write env heap1 nameBytes).heap p).OpenDir dir
          = some (stream, code) →
        ∀ d ∈ stream.buf, d.Name = name → dir = [] ∧ name = configName) ∧
      (∃ stream, ((z.Write env heap1 nameBytes).heap p).OpenDir [] = some (stream, OK)) ∧
      (∃ stream, ((z.Write env heap1 nameBytes).heap p).OpenDir configName
        = some (stream, OK)) ∧
      ((heap p).zips = ∅ → (heap p).pendingZips = ∅ →
        ((z.Write env heap1 nameBytes).heap p).OpenDir []
          = some ({ cap := 2, buf := [{ Name := configName, Mode := S_IFDIR ||| 0o700 }],
                    closed := true }, OK)) := by
  refine ⟨_, _, Create_config p heap name flags mode hsep, ?_⟩
  have hw := Write_provider_fails env { Basename := name, zfs := some p }
    (Function.update heap p
      { heap p with pendingZips := (heap p).pendingZips.insert name true })
    nameBytes p rfl hprov
  rw [hw]
  refine ⟨rfl, ?_, ⟨_, OpenDir_eq _ _⟩, ⟨_, OpenDir_eq _ _⟩, ?_⟩
  · intro dir stream code hopen d hd hname
    rcases OpenDir_names _ dir stream code hopen d hd with hz | hp | hc
    · rw [hname] at hz
      simp [hnm] at hz
    · rw [hname] at hp
      simp at hp
    · exact ⟨hc.1, hname ▸ hc.2⟩
  · intro hz hp
    rw [OpenDir_eq]
    have he : (AList.erase name (AList.singleton name true : GoMap Bool)).entries = [] := by
      simp [AList.erase, AList.singleton, List.kerase]
    simp [hz, hp, he]

/-- C4 amended, at the name `photos` on the fresh registry. -/
theorem C4_failed_write_unlists_unmounted_name_witness :
    Separator ∉ photos ∧
    (emptyHeap 0).zips.lookup photos = none ∧
    envNoArchive.NewArchiveFileSystem (strings.Trim photosPayload trimCutset) = none ∧
    ∃ z heap1,
      MultiZipFs.Create 0 emptyHeap (CONFIG_PREFIX ++ photos) 0 0 = ((some z, OK), heap1) ∧
      (z.Write envNoArchive heap1 photosPayload).code = ENOSYS ∧
      (∀ dir stream code, ((z.Write envNoArchive heap1 photosPayload).heap 0).OpenDir dir
          = some (stream, code) →
        ∀ d ∈ stream.buf, d.Name = photos → dir = [] ∧ photos = configName) ∧
      (∃ stream, ((z.Write envNoArchive heap1 photosPayload).heap 0).OpenDir []
        = some (stream, OK)) ∧
      (∃ stream, ((z.Write envNoArchive heap1 photosPayload).heap 0).OpenDir configName
        = some (stream, OK)) ∧
      ((emptyHeap 0).zips = ∅ → (emptyHeap 0).pendingZips = ∅ →
        ((z.Write envNoArchive heap1 photosPayload).heap 0).OpenDir []
          = some ({ cap := 2, buf := [{ Name := configName, Mode := S_IFDIR ||| 0o700 }],
                    closed := true }, OK)) :=
  ⟨by decide, by decide, by decide,
    C4_failed_write_unlists_unmounted_name envNoArchive emptyHeap 0 photos photosPayload 0 0
      (by decide) (by decide) (by decide)⟩

/-- C5, as stated, fails: a first `Write` on the photos request that fails, through
archive construction (ENOSYS) or through the connector (status 5), leaves the request
as it was, and a second `Write` on it is processed again rather than rejected with
EPERM: it fails in the same way, or commits the mount when the collaborators accept. -/
theorem C5_counterexample :
    (photosRequest.Write envNoArchive photosPendingHeap photosPayload).code = ENOSYS ∧
    (photosRequest.Write envNoArchive photosPendingHeap photosPayload).me = photosRequest ∧
    ((photosRequest.Write envNoArchive photosPendingHeap photosPayload).me.Write envNoArchive
      (photosRequest.Write envNoArchive photosPendingHeap photosPayload).heap photosPayload).code
      = ENOSYS ∧
    ((photosRequest.Write envNoArchive photosPendingHeap photosPayload).me.Write envAccept
      (photosRequest.Write envNoArchive photosPendingHeap photosPayload).heap photosPayload).code
      = OK ∧
    (photosRequest.Write envRefuse photosPendingHeap photosPayload).code = 5 ∧
    ((photosRequest.Write envRefuse photosPendingHeap photosPayload).me.Write envRefuse
      (photosRequest.Write envRefuse photosPendingHeap photosPayload).heap photosPayload).code
      = 5 := by
  decide

/-- C5, amended: a write on an Armed request transitions it to Consumed when it succeeds
(the provider builds the archive and the connector answers OK): then every second
`Write` on the same request returns 0 bytes and EPERM.  A write that fails, through
archive construction or through the connector, leaves the request unchanged, hence still
Armed. -/
theorem C5_only_committed_write_consumes (env1 env2 : Env) (me : zipCreateFile) (heap : Heap)
    (b1 b2 : GoString) (p : Ptr) (harmed : me.zfs = some p) :
    (∀ fs, env1.NewArchiveFileSystem (strings.Trim b1 trimCutset) = some fs →
      env1.ConnectorMount (heap p).Connector (Separator :: filepath.Base me.Basename) fs = OK →
      (me.Write env1 heap b1).code = OK ∧
      (me.Write env1 heap b1).me.zfs = none ∧
      ((me.Write env1 heap b1).me.Write env2 (me.Write env1 heap b1).heap b2).n = 0 ∧
      ((me.Write env1 heap b1).me.Write env2 (me.Write env1 heap b1).heap b2).code = EPERM) ∧
    (env1.NewArchiveFileSystem (strings.Trim b1 trimCutset) = none →
      (me.Write env1 heap b1).code = ENOSYS ∧
      (me.Write env1 heap b1).me = me ∧ (me.Write env1 heap b1).me.zfs = some p) ∧
    (∀ fs, env1.NewArchiveFileSystem (strings.Trim b1 trimCutset) = some fs →
      env1.ConnectorMount (heap p).Connector (Separator :: filepath.Base me.Basename) fs ≠ OK →
      (me.Write env1 heap b1).code ≠ OK ∧
      (me.Write env1 heap b1).me = me ∧ (me.Write env1 heap b1).me.zfs = some p) := by
  refine ⟨?_, ?_, ?_⟩
  · intro fs hprov hconn
    rw [Write_commits env1 me heap b1 p fs harmed hprov hconn]
    refine ⟨rfl, rfl, ?_, ?_⟩
    · rw [Write_nil env2 _ _ b2 rfl]
    · rw [Write_nil env2 _ _ b2 rfl]
  · intro hprov
    rw [Write_provider_fails env1 me heap b1 p harmed hprov]
    exact ⟨rfl, rfl, harmed⟩
  · intro fs hprov hconn
    rw [Write_attach_fails env1 me heap b1 p fs harmed hprov hconn]
    exact ⟨hconn, rfl, harmed⟩

/-- C5 amended, at the photos request: after the committed write, a second write is
rejected with EPERM. -/
theorem C5_only_committed_write_consumes_witness :
    photosRequest.zfs = some 0 ∧
    (photosRequest.Write envAccept photosPendingHeap photosPayload).code = OK ∧
    (photosRequest.Write envAccept photosPendingHeap photosPayload).me.zfs = none ∧
    ((photosRequest.Write envAccept photosPendingHeap photosPayload).me.Write envAccept
      (photosRequest.Write envAccept photosPendingHeap photosPayload).heap photosZip).n = 0 ∧
    ((photosRequest.Write envAccept photosPendingHeap photosPayload).me.Write envAccept
      (photosRequest.Write envAccept photosPendingHeap photosPayload).heap photosZip).code
      = EPERM :=
  ⟨by decide,
    (C5_only_committed_write_consumes envAccept envAccept photosRequest photosPendingHeap
      photosPayload photosZip 0 (by decide)).1 { id := 7 } (by decide) (by decide)⟩

/-- C6: for every Consumed request (nil back-reference) and every payload, `Write`
returns 0 bytes and EPERM, calls neither the archive provider nor the connector, and
leaves the request and every registry (all three tables) unchanged. -/
theorem C6_write_on_consumed_rejected (env : Env) (me : zipCreateFile) (heap : Heap)
    (nameBytes : GoString) (hconsumed : me.zfs = none) :
    (me.Write env heap nameBytes).n = 0 ∧
    (me.Write env heap nameBytes).code = EPERM ∧
    (me.Write env heap nameBytes).calls = [] ∧
    (me.Write env heap nameBytes).me = me ∧
    (me.Write env heap nameBytes).heap = heap := by
  rw [Write_nil env me heap nameBytes hconsumed]
  exact ⟨rfl, rfl, rfl, rfl, rfl⟩

/-- C6 at the photos request once consumed by its committed write. -/
theorem C6_write_on_consumed_rejected_witness :
    (photosRequest.Write envAccept photosPendingHeap photosPayload).me.zfs = none ∧
    ((photosRequest.Write envAccept photosPendingHeap photosPayload).me.Write envAccept
      photosMountedHeap photosPayload).n = 0 ∧
    ((photosRequest.Write envAccept photosPendingHeap photosPayload).me.Write envAccept
      photosMountedHeap photosPayload).code = EPERM ∧
    ((photosRequest.Write envAccept photosPendingHeap photosPayload).me.Write envAccept
      photosMountedHeap photosPayload).calls = [] ∧
    ((photosRequest.Write envAccept photosPendingHeap photosPayload).me.Write envAccept
      photosMountedHeap photosPayload).me
      = (photosRequest.Write envAccept photosPendingHeap photosPayload).me ∧
    ((photosRequest.Write envAccept photosPendingHeap photosPayload).me.Write envAccept
      photosMountedHeap photosPayload).heap = photosMountedHeap :=
  ⟨by decide,
    C6_write_on_consumed_rejected envAccept
      (photosRequest.Write envAccept photosPendingHeap photosPayload).me photosMountedHeap
      photosPayload (by decide)⟩

/-- C7: for every Armed request and payload for which the archive provider succeeds but
the connector answers a status `c` other than OK, `Write` returns 0 bytes and `c`
itself, every registry (all three tables) is exactly as before the write, and in
particular a pending marker of the request basename stays set. -/
theorem C7_write_attach_failure (env : Env) (me : zipCreateFile) (heap : Heap)
    (nameBytes : GoString) (p : Ptr) (fs : MemTreeFileSystem) (c : Status)
    (harmed : me.zfs = some p)
    (hprov : env.NewArchiveFileSystem (strings.Trim nameBytes trimCutset) = some fs)
    (hconn : env.ConnectorMount (heap p).Connector (Separator :: filepath.Base me.Basename) fs
      = c)
    (hc : c ≠ OK) :
    (me.Write env heap nameBytes).n = 0 ∧
    (me.Write env heap nameBytes).code = c ∧
    (me.Write env heap nameBytes).heap = heap ∧
    (∀ b, (heap p).pendingZips.lookup me.Basename = some b →
      ((me.Write env heap nameBytes).heap p).pendingZips.lookup me.Basename = some b) := by
  rw [Write_attach_fails env me heap nameBytes p fs harmed hprov (hconn ▸ hc)]
  exact ⟨rfl, hconn, rfl, fun _ hb => hb⟩

/-- C7 at the photos request, with a connector that refuses the mount with status 5:
the pending marker set by `Create` is still there. -/
theorem C7_write_attach_failure_witness :
    photosRequest.zfs = some 0 ∧
    envRefuse.NewArchiveFileSystem (strings.Trim photosPayload trimCutset) = some { id := 7 } ∧
    envRefuse.ConnectorMount (photosPendingHeap 0).Connector
      (Separator :: filepath.Base photosRequest.Basename) { id := 7 } = 5 ∧
    (5 : Status) ≠ OK ∧
    (photosRequest.Write envRefuse photosPendingHeap photosPayload).n = 0 ∧
    (photosRequest.Write envRefuse photosPendingHeap photosPayload).code = 5 ∧
    (photosRequest.Write envRefuse photosPendingHeap photosPayload).heap = photosPendingHeap ∧
    ((photosRequest.Write envRefuse photosPendingHeap photosPayload).heap 0).pendingZips.lookup
      photosRequest.Basename = some true :=
  have t := C7_write_attach_failure envRefuse photosRequest photosPendingHeap photosPayload 0
    { id := 7 } 5 (by decide) (by decide) (by decide) (by decide)
  ⟨by decide, by decide, by decide, by decide, t.1, t.2.1, t.2.2.1, t.2.2.2 true (by decide)⟩

/-- A control path is neither the root nor the control directory itself. -/
theorem config_path_ne (name : GoString) :
    CONFIG_PREFIX ++ name ≠ [] ∧ CONFIG_PREFIX ++ name ≠ configName := by
  constructor
  · intro h
    have hl := congrArg List.length h
    simp [CONFIG_PREFIX] at hl
  · intro h
    have hl := congrArg List.length h
    simp only [CONFIG_PREFIX, configName, List.length_append, List.length_cons,
      List.length_nil] at hl
    omega

/-- The path of `Unlink` for a mounted name under the control directory. -/
theorem Unlink_mounted (p : Ptr) (heap : Heap) (name : GoString) (hsep : Separator ∉ name)
    (hm : ((heap p).zips.lookup name).isSome = true) :
    MultiZipFs.Unlink p heap (CONFIG_PREFIX ++ name)
      = (OK, Function.update heap p
          { heap p with
            zips := (heap p).zips.erase name,
            dirZipFileMap := (heap p).dirZipFileMap.erase name }) := by
  unfold MultiZipFs.Unlink
  rw [Split_config name hsep]
  simp [hm]

/-- C8, as stated, fails: in the registry reached from the fresh one by mounting
`photos` and creating `config/photos` once more, `photos` is mounted,
`Unlink("config/photos")` returns OK, and afterwards `GetAttr("config/photos")` and
`GetAttr("photos")` both return OK rather than ENOENT, the name being still pending.
Likewise, with the name `config` mounted and not pending, `Unlink("config/config")`
returns OK and afterwards `GetAttr("config")` returns OK, the path being the control
directory. -/
theorem C8_counterexample :
    (configMountedHeap 0).zips.lookup configName = some { id := 7 } ∧
    (configMountedHeap 0).pendingZips.lookup configName = none ∧
    (MultiZipFs.Unlink 0 configMountedHeap (CONFIG_PREFIX ++ configName)).1 = OK ∧
    ((MultiZipFs.Unlink 0 configMountedHeap (CONFIG_PREFIX ++ configName)).2 0).GetAttr
        configName
      = (some { Mode := S_IFDIR ||| 0o700 }, OK) ∧
    (photosRecreatedHeap 0).zips.lookup photos = some { id := 7 } ∧
    (MultiZipFs.Unlink 0 photosRecreatedHeap (CONFIG_PREFIX ++ photos)).1 = OK ∧
    ((MultiZipFs.Unlink 0 photosRecreatedHeap (CONFIG_PREFIX ++ photos)).2 0).GetAttr
        (CONFIG_PREFIX ++ photos)
      = (some { Mode := S_IFREG ||| 0o600 }, OK) ∧
    ((MultiZipFs.Unlink 0 photosRecreatedHeap (CONFIG_PREFIX ++ photos)).2 0).GetAttr photos
      = (some { Mode := S_IFDIR ||| 0o700 }, OK) := by
  decide

/-- C8, amended: for every registry state in which the valid `<name>` (non-empty, without
separator) is mounted, `Unlink("config/<name>")` returns OK and removes `<name>` from
both `zips` and `dirZipFileMap`; when `<name>` is moreover not pending, afterwards
`GetAttr("config/<name>")` returns ENOENT, and so does `GetAttr("<name>")` unless
`<name>` is `config`. -/
theorem C8_unlink_mounted_then_not_found (heap : Heap) (p : Ptr) (name : GoString)
    (hne : name ≠ []) (hsep : Separator ∉ name)
    (hm : ((heap p).zips.lookup name).isSome = true) :
    (MultiZipFs.Unlink p heap (CONFIG_PREFIX ++ name)).1 = OK ∧
    ((MultiZipFs.Unlink p heap (CONFIG_PREFIX ++ name)).2 p).zips.lookup name = none ∧
    ((MultiZipFs.Unlink p heap (CONFIG_PREFIX ++ name)).2 p).dirZipFileMap.lookup name = none ∧
    ((heap p).pendingZips.lookup name = none →
      ((MultiZipFs.Unlink p heap (CONFIG_PREFIX ++ name)).2 p).GetAttr (CONFIG_PREFIX ++ name)
        = (none, ENOENT) ∧
      (name ≠ configName →
        ((MultiZipFs.Unlink p heap (CONFIG_PREFIX ++ name)).2 p).GetAttr name
          = (none, ENOENT))) := by
  rw [Unlink_mounted p heap name hsep hm]
  refine ⟨rfl, ?_, ?_, ?_⟩
  · simp
  · simp
  · intro hp
    constructor
    · unfold MultiZipFs.GetAttr
      rw [if_neg (config_path_ne name).1, if_neg (config_path_ne name).2,
        Split_config name hsep]
      simp [hp]
    · intro hcfg
      unfold MultiZipFs.GetAttr
      rw [if_neg hne, if_neg hcfg, Split_of_not_mem name hsep]
      simp [hp]

/-- C8 amended, at `photos` mounted and not pending. -/
theorem C8_unlink_mounted_then_not_found_witness :
    photos ≠ [] ∧ Separator ∉ photos ∧
    ((photosMountedHeap 0).zips.lookup photos).isSome = true ∧
    (photosMountedHeap 0).pendingZips.lookup photos = none ∧
    photos ≠ configName ∧
    (MultiZipFs.Unlink 0 photosMountedHeap (CONFIG_PREFIX ++ photos)).1 = OK ∧
    ((MultiZipFs.Unlink 0 photosMountedHeap (CONFIG_PREFIX ++ photos)).2 0).zips.lookup photos
      = none ∧
    ((MultiZipFs.Unlink 0 photosMountedHeap (CONFIG_PREFIX ++ photos)).2 0).dirZipFileMap.lookup
      photos = none ∧
    ((MultiZipFs.Unlink 0 photosMountedHeap (CONFIG_PREFIX ++ photos)).2 0).GetAttr
      (CONFIG_PREFIX ++ photos) = (none, ENOENT) ∧
    ((MultiZipFs.Unlink 0 photosMountedHeap (CONFIG_PREFIX ++ photos)).2 0).GetAttr photos
      = (none, ENOENT) :=
  have t := C8_unlink_mounted_then_not_found photosMountedHeap 0 photos (by decide) (by decide)
    (by decide)
  ⟨by decide, by decide, by decide, by decide, by decide, t.1, t.2.1, t.2.2.1,
    (t.2.2.2 (by decide)).1, (t.2.2.2 (by decide)).2 (by decide)⟩

/-- C9: for every registry state and path, `Unlink` fails with EPERM exactly when the
directory part of the path is not `"config/"`; under the control directory it fails with
ENOENT exactly when the name is not mounted (whether or not it is pending); and in
every failing case every registry, hence all three tables, is left unchanged. -/
theorem C9_unlink_failure_statuses (heap : Heap) (p : Ptr) (path : GoString) :
    ((MultiZipFs.Unlink p heap path).1 = EPERM ↔ (filepath.Split path).1 ≠ CONFIG_PREFIX) ∧
    ((filepath.Split path).1 = CONFIG_PREFIX →
      ((MultiZipFs.Unlink p heap path).1 = ENOENT
        ↔ ((heap p).zips.lookup (filepath.Split path).2).isSome = false)) ∧
    (∀ name : GoString, Separator ∉ name →
      ((MultiZipFs.Unlink p heap (CONFIG_PREFIX ++ name)).1 = ENOENT
        ↔ (heap p).zips.lookup name = none)) ∧
    ((MultiZipFs.Unlink p heap path).1 ≠ OK → (MultiZipFs.Unlink p heap path).2 = heap) := by
  have h21 : (OK : Status) ≠ EPERM := by decide
  have h23 : (ENOENT : Status) ≠ EPERM := by decide
  have h13 : (OK : Status) ≠ ENOENT := by decide
  refine ⟨?_, ?_, ?_, ?_⟩
  · unfold MultiZipFs.Unlink
    by_cases hd : (filepath.Split path).1 = CONFIG_PREFIX
    · by_cases hm : ((heap p).zips.lookup (filepath.Split path).2).isSome = true
      · simp [hd, hm, h21]
      · simp [hd, hm, h23]
    · simp [hd]
  · intro hd
    unfold MultiZipFs.Unlink
    by_cases hm : ((heap p).zips.lookup (filepath.Split path).2).isSome = true
    · simp [hd, hm, h13]
    · simp [hd, hm]
  · intro name hsep
    unfold MultiZipFs.Unlink
    rw [Split_config name hsep]
    cases hl : (heap p).zips.lookup name with
    | none => simp [hl]
    | some v => simp [hl, h13]
  · unfold MultiZipFs.Unlink
    by_cases hd : (filepath.Split path).1 = CONFIG_PREFIX
    · by_cases hm : ((heap p).zips.lookup (filepath.Split path).2).isSome = true
      · simp [hd, hm]
      · simp [hd, hm]
    · simp [hd]

/-- C10: for every registry state, every path and every flags value with a write-intent
bit set (`flags & O_ANYWRITE != 0`), `Open` returns no file and EPERM. -/
theorem C10_open_write_intent_denied (me : MultiZipFs) (name : GoString) (flags : Nat)
    (hw : flags &&& O_ANYWRITE ≠ 0) :
    me.Open name flags = (none, EPERM) := by
  unfold MultiZipFs.Open
  rw [if_pos (fun h => hw h.symm)]

/-- C10 at the recorded control file `config/photos`, opened write-only (flags 1). -/
theorem C10_open_write_intent_denied_witness :
    (1 : Nat) &&& O_ANYWRITE ≠ 0 ∧
    ((photosMountedHeap 0).dirZipFileMap.lookup photos).isSome = true ∧
    (photosMountedHeap 0).Open (CONFIG_PREFIX ++ photos) 1 = (none, EPERM) :=
  ⟨by decide, by decide,
    C10_open_write_intent_denied (photosMountedHeap 0) (CONFIG_PREFIX ++ photos) 1 (by decide)⟩

/-- C11: for every registry state and every flags value without write intent,
`Open("config/<name>")` returns OK with a read-only file whose bytes are exactly the
recorded source path of `<name>` when one is recorded, and ENOENT when none is
recorded (whatever the pending marker); `Open` of a path whose directory part is not
`"config/"` returns ENOENT.  (`Open` assigns to no field of its receiver, which is why
it is a function of the registry that returns no new store.) -/
theorem C11_open_read_only (me : MultiZipFs) (flags : Nat) (hro : flags &&& O_ANYWRITE = 0) :
    (∀ name orig : GoString, Separator ∉ name → me.dirZipFileMap.lookup name = some orig →
      me.Open (CONFIG_PREFIX ++ name) flags = (some (NewReadOnlyFile orig), OK) ∧
      (NewReadOnlyFile orig).data = orig) ∧
    (∀ name : GoString, Separator ∉ name → me.dirZipFileMap.lookup name = none →
      me.Open (CONFIG_PREFIX ++ name) flags = (none, ENOENT)) ∧
    (∀ path : GoString, (filepath.Split path).1 ≠ CONFIG_PREFIX →
      me.Open path flags = (none, ENOENT)) := by
  refine ⟨?_, ?_, ?_⟩
  · intro name orig hsep hrec
    unfold MultiZipFs.Open
    rw [Split_config name hsep]
    simp [hro, hrec, NewReadOnlyFile]
  · intro name hsep hrec
    unfold MultiZipFs.Open
    rw [Split_config name hsep]
    simp [hro, hrec]
  · intro path hd
    unfold MultiZipFs.Open
    simp [hro, hd]

/-- C11 at the registry with `photos` mounted (its source path is read back), at the
registry with `photos` only pending (ENOENT), and at a path outside `config/`. -/
theorem C11_open_read_only_witness :
    (0 : Nat) &&& O_ANYWRITE = 0 ∧
    (photosMountedHeap 0).Open (CONFIG_PREFIX ++ photos) 0
      = (some (NewReadOnlyFile photosZip), OK) ∧
    (photosPendingHeap 0).pendingZips.lookup photos = some true ∧
    (photosPendingHeap 0).Open (CONFIG_PREFIX ++ photos) 0 = (none, ENOENT) ∧
    (photosMountedHeap 0).Open photos 0 = (none, ENOENT) :=
  ⟨by decide,
    ((C11_open_read_only (photosMountedHeap 0) 0 (by decide)).1 photos photosZip
      (by decide) (by decide)).1,
    by decide,
    (C11_open_read_only (photosPendingHeap 0) 0 (by decide)).2.1 photos (by decide) (by decide),
    (C11_open_read_only (photosMountedHeap 0) 0 (by decide)).2.2 photos (by decide)⟩

/-- C12: for every registry state, flags and mode, and every path whose directory part
is not `"config/"`, `Create` returns no file and EPERM, and the store is unchanged: no
table of any registry is mutated. -/
theorem C12_create_outside_control_directory (heap : Heap) (p : Ptr) (path : GoString)
    (flags mode : Nat) (hd : (filepath.Split path).1 ≠ CONFIG_PREFIX) :
    MultiZipFs.Create p heap path flags mode = ((none, EPERM), heap) := by
  unfold MultiZipFs.Create
  simp [hd]

/-- C12 at the path `other/path`, on the registry with `photos` mounted. -/
theorem C12_create_outside_control_directory_witness :
    (filepath.Split otherPath).1 ≠ CONFIG_PREFIX ∧
    MultiZipFs.Create 0 photosMountedHeap otherPath 0 0 = ((none, EPERM), photosMountedHeap) :=
  ⟨by decide, C12_create_outside_control_directory photosMountedHeap 0 otherPath 0 0 (by decide)⟩

/-- C13: for every registry state and every name (a path element, without separator),
`Create("config/<name>", flags, mode)` returns OK with a new Armed request whose
`Basename` is `<name>` and whose back-reference is this registry, and `<name>` is in
`pendingZips` afterwards, whatever the tables held before; nothing else changes. -/
theorem C13_create_marks_pending (heap : Heap) (p : Ptr) (name : GoString) (flags mode : Nat)
    (hsep : Separator ∉ name) :
    (MultiZipFs.Create p heap (CONFIG_PREFIX ++ name) flags mode).1
      = (some { Basename := name, zfs := some p }, OK) ∧
    ((MultiZipFs.Create p heap (CONFIG_PREFIX ++ name) flags mode).2 p).pendingZips.lookup name
      = some true ∧
    (∀ k : GoString, k ≠ name →
      ((MultiZipFs.Create p heap (CONFIG_PREFIX ++ name) flags mode).2 p).pendingZips.lookup k
        = (heap p).pendingZips.lookup k) ∧
    ((MultiZipFs.Create p heap (CONFIG_PREFIX ++ name) flags mode).2 p).zips = (heap p).zips ∧
    ((MultiZipFs.Create p heap (CONFIG_PREFIX ++ name) flags mode).2 p).dirZipFileMap
      = (heap p).dirZipFileMap ∧
    (∀ q : Ptr, q ≠ p →
      (MultiZipFs.Create p heap (CONFIG_PREFIX ++ name) flags mode).2 q = heap q) := by
  rw [Create_config p heap name flags mode hsep]
  refine ⟨rfl, ?_, ?_, ?_, ?_, ?_⟩
  · simp
  · intro k hk
    simp [AList.lookup_insert_ne hk]
  · simp
  · simp
  · intro q hq
    simp [Function.update_noteq hq]

/-- C13 at the name `photos`, on the registry in which `photos` is already mounted. -/
theorem C13_create_marks_pending_witness :
    Separator ∉ photos ∧
    ((photosMountedHeap 0).zips.lookup photos).isSome = true ∧
    (MultiZipFs.Create 0 photosMountedHeap (CONFIG_PREFIX ++ photos) 0 0).1
      = (some { Basename := photos, zfs := some 0 }, OK) ∧
    ((MultiZipFs.Create 0 photosMountedHeap (CONFIG_PREFIX ++ photos) 0 0).2 0).pendingZips.lookup
      photos = some true :=
  have t := C13_create_marks_pending photosMountedHeap 0 photos 0 0 (by decide)
  ⟨by decide, by decide, t.1, t.2.1⟩

/-- C15: for every registry state `OpenDir` returns OK with a closed channel.  For the
root it holds, up to order, one entry with mode `S_IFDIR|0700` per key of `zips` and per
key of `pendingZips` (the keys of a table are distinct) and exactly one more entry,
`config` with mode `S_IFDIR|0700`; for the control directory it holds the same per-name
entries with mode `S_IFREG|0600` and nothing else.  With empty tables the root listing
is exactly the entry `config`. -/
theorem C15_opendir_listing (me : MultiZipFs) :
    (∃ stream, me.OpenDir [] = some (stream, OK) ∧ stream.closed = true ∧
      stream.buf.Perm
        ((me.zips.keys ++ me.pendingZips.keys).map
            (fun k => ({ Name := k, Mode := S_IFDIR ||| 0o700 } : DirEntry))
          ++ [{ Name := configName, Mode := S_IFDIR ||| 0o700 }])) ∧
    (∃ stream, me.OpenDir configName = some (stream, OK) ∧ stream.closed = true ∧
      stream.buf.Perm
        ((me.zips.keys ++ me.pendingZips.keys).map
            (fun k => ({ Name := k, Mode := S_IFREG ||| 0o600 } : DirEntry)))) ∧
    me.zips.keys.Nodup ∧ me.pendingZips.keys.Nodup ∧
    (me.zips = ∅ → me.pendingZips = ∅ →
      ∃ stream, me.OpenDir [] = some (stream, OK) ∧ stream.closed = true ∧
        stream.buf = [{ Name := configName, Mode := S_IFDIR ||| 0o700 }]) := by
  have hcfg : ([] : GoString) ≠ configName := by decide
  have hcfg2 : configName ≠ ([] : GoString) := by decide
  refine ⟨⟨_, OpenDir_eq me [], rfl, ?_⟩, ⟨_, OpenDir_eq me configName, rfl, ?_⟩,
    me.zips.keys_nodup, me.pendingZips.keys_nodup, ?_⟩
  · simp [hcfg]
  · simp [hcfg2]
  · intro hz hp
    refine ⟨_, OpenDir_eq me [], rfl, ?_⟩
    simp [hz, hp, hcfg]

/-- C16: for every registry state, `GetAttr` returns mode `S_IFDIR|0500` and OK for the
root, mode `S_IFDIR|0700` and OK for `config`; for `config/<name>` the file mode
`S_IFREG|0600` and for any other bare `<name>` the directory mode `S_IFDIR|0700`, with
OK when `<name>` is mounted or pending and ENOENT with no attributes otherwise; and
ENOENT for every path whose directory part is neither empty nor `"config/"`.
(`GetAttr` assigns to no field of its receiver, which is why it is a function of the
registry that returns no new store.) -/
theorem C16_getattr_table (me : MultiZipFs) :
    me.GetAttr [] = (some { Mode := S_IFDIR ||| 0o500 }, OK) ∧
    me.GetAttr configName = (some { Mode := S_IFDIR ||| 0o700 }, OK) ∧
    (∀ name : GoString, Separator ∉ name →
      ((me.zips.lookup name).isSome = true ∨ (me.pendingZips.lookup name).isSome = true →
        me.GetAttr (CONFIG_PREFIX ++ name) = (some { Mode := S_IFREG ||| 0o600 }, OK)) ∧
      (me.zips.lookup name = none → me.pendingZips.lookup name = none →
        me.GetAttr (CONFIG_PREFIX ++ name) = (none, ENOENT))) ∧
    (∀ name : GoString, Separator ∉ name → name ≠ [] → name ≠ configName →
      ((me.zips.lookup name).isSome = true ∨ (me.pendingZips.lookup name).isSome = true →
        me.GetAttr name = (some { Mode := S_IFDIR ||| 0o700 }, OK)) ∧
      (me.zips.lookup name = none → me.pendingZips.lookup name = none →
        me.GetAttr name = (none, ENOENT))) ∧
    (∀ path : GoString, (filepath.Split path).1 ≠ [] →
      (filepath.Split path).1 ≠ CONFIG_PREFIX → me.GetAttr path = (none, ENOENT)) := by
  have hnil : ([] : GoString) ≠ CONFIG_PREFIX := by decide
  refine ⟨rfl, rfl, ?_, ?_, ?_⟩
  · intro name hsep
    constructor
    · intro h
      unfold MultiZipFs.GetAttr
      rw [if_neg (config_path_ne name).1, if_neg (config_path_ne name).2,
        Split_config name hsep]
      rcases h with h | h
      · simp [h]
      · simp [h]
    · intro hz hp
      unfold MultiZipFs.GetAttr
      rw [if_neg (config_path_ne name).1, if_neg (config_path_ne name).2,
        Split_config name hsep]
      simp [hz, hp]
  · intro name hsep hne hcfg
    constructor
    · intro h
      unfold MultiZipFs.GetAttr
      rw [if_neg hne, if_neg hcfg, Split_of_not_mem name hsep]
      rcases h with h | h
      · simp [h, hnil]
      · simp [h, hnil]
    · intro hz hp
      unfold MultiZipFs.GetAttr
      rw [if_neg hne, if_neg hcfg, Split_of_not_mem name hsep]
      simp [hz, hp]
  · intro path hd hc
    have hne : path ≠ [] := by
      intro h
      subst h
      exact hd rfl
    have hcfg : path ≠ configName := by
      intro h
      subst h
      exact hd (by decide)
    unfold MultiZipFs.GetAttr
    rw [if_neg hne, if_neg hcfg]
    simp [hd, hc]

/-- C18, as stated, fails: on the registry in which `photos` is mounted, `OpenDir` of
the directory `photos`, which is neither the root nor `config`, returns OK together
with a non-empty sequence, the entry `photos`. -/
theorem C18_counterexample :
    photos ≠ [] ∧ photos ≠ configName ∧
    (photosMountedHeap 0).OpenDir photos
      = some ({ cap := 3, buf := [{ Name := photos, Mode := S_IFDIR ||| 0o700 }],
                closed := true }, OK) := by
  decide

/-- C18, amended: for every registry state and every directory path other than the root
and `config`, `OpenDir` returns OK with a closed channel holding one entry with mode
`S_IFDIR|0700` per key of `zips` and per key of `pendingZips` and no entry `config` of
its own; the sequence is empty exactly when both tables are empty. -/
theorem C18_opendir_other_directory (me : MultiZipFs) (name : GoString)
    (hroot : name ≠ []) (hcfg : name ≠ configName) :
    ∃ stream, me.OpenDir name = some (stream, OK) ∧ stream.closed = true ∧
      stream.buf = (me.zips.keys ++ me.pendingZips.keys).map
        (fun k => ({ Name := k, Mode := S_IFDIR ||| 0o700 } : DirEntry)) ∧
      (stream.buf = [] ↔ me.zips.keys = [] ∧ me.pendingZips.keys = []) := by
  refine ⟨_, OpenDir_eq me name, rfl, ?_, ?_⟩
  · simp [hroot, hcfg]
  · simp [hroot, hcfg]

/-- C18 amended, at the directory `photos` of the registry in which `photos` is
mounted. -/
theorem C18_opendir_other_directory_witness :
    photos ≠ [] ∧ photos ≠ configName ∧
    ∃ stream, (photosMountedHeap 0).OpenDir photos = some (stream, OK) ∧
      stream.closed = true ∧
      stream.buf = ((photosMountedHeap 0).zips.keys ++ (photosMountedHeap 0).pendingZips.keys).map
        (fun k => ({ Name := k, Mode := S_IFDIR ||| 0o700 } : DirEntry)) ∧
      (stream.buf = [] ↔
        (photosMountedHeap 0).zips.keys = [] ∧ (photosMountedHeap 0).pendingZips.keys = []) :=
  ⟨by decide, by decide,
    C18_opendir_other_directory (photosMountedHeap 0) photos (by decide) (by decide)⟩

/-- C20: for every registry state and every directory name no send of `OpenDir` blocks:
it returns its channel, the number of entries sent is
`len(zips) + len(pendingZips)`, plus one for the root, and that never exceeds the
capacity `len(pendingZips) + len(zips) + 2` of the channel. -/
theorem C20_opendir_sends_fit_capacity (me : MultiZipFs) (name : GoString) :
    ∃ stream, me.OpenDir name = some (stream, OK) ∧
      stream.buf.length
        = me.zips.entries.length + me.pendingZips.entries.length + (if name = [] then 1 else 0) ∧
      stream.cap = me.pendingZips.entries.length + me.zips.entries.length + 2 ∧
      stream.buf.length ≤ stream.cap := by
  have hz : me.zips.keys.length = me.zips.entries.length := by
    simp [AList.keys, List.keys]
  have hp : me.pendingZips.keys.length = me.pendingZips.entries.length := by
    simp [AList.keys, List.keys]
  refine ⟨_, OpenDir_eq me name, ?_, rfl, ?_⟩
  · by_cases hn : name = []
    · simp only [hn, List.length_append, List.length_map, hz, hp, if_true, List.length_cons,
        List.length_nil]
    · simp only [hn, List.length_append, List.length_map, hz, hp, if_false, List.length_nil]
  · by_cases hn : name = []
    · simp only [hn, List.length_append, List.length_map, hz, hp, if_true, List.length_cons,
        List.length_nil]
      omega
    · simp only [hn, List.length_append, List.length_map, hz, hp, if_false, List.length_nil]
      omega

/-! ## Trimming -/

/-- A list is what `rdropWhile` keeps followed by what `rtakeWhile` takes. -/
theorem rdropWhile_append_rtakeWhile_eq (q : Byte → Bool) (l : GoString) :
    l.rdropWhile q ++ l.rtakeWhile q = l := by
  simp only [List.rdropWhile, List.rtakeWhile]
  rw [← List.reverse_append, List.takeWhile_append_dropWhile, List.reverse_reverse]

/-- The trimmed string is the string without a leading and a trailing run of cutset
bytes. -/
theorem Trim_decompose (s cutset : GoString) :
    ∃ pre post : GoString, s = pre ++ strings.Trim s cutset ++ post ∧
      (∀ b ∈ pre, b ∈ cutset) ∧ (∀ b ∈ post, b ∈ cutset) := by
  refine ⟨s.takeWhile (fun b => decide (b ∈ cutset)),
    (s.dropWhile (fun b => decide (b ∈ cutset))).rtakeWhile (fun b => decide (b ∈ cutset)),
    ?_, ?_, ?_⟩
  · unfold strings.Trim
    rw [List.append_assoc, rdropWhile_append_rtakeWhile_eq, List.takeWhile_append_dropWhile]
  · intro b hb
    simpa using List.mem_takeWhile_imp hb
  · intro b hb
    simpa using List.mem_rtakeWhile_imp hb

/-- The trimmed string does not begin with a cutset byte. -/
theorem Trim_head_not_mem (s cutset : GoString) (b : Byte)
    (h : (strings.Trim s cutset).head? = some b) : b ∉ cutset := by
  unfold strings.Trim at h
  have hne : (s.dropWhile (fun b => decide (b ∈ cutset))).rdropWhile
      (fun b => decide (b ∈ cutset)) ≠ [] := by
    intro h0
    rw [h0] at h
    cases h
  obtain ⟨t, ht⟩ := List.rdropWhile_prefix (fun b => decide (b ∈ cutset))
    (s.dropWhile (fun b => decide (b ∈ cutset)))
  have hhead : (s.dropWhile (fun b => decide (b ∈ cutset))).head? = some b := by
    rw [← ht, List.head?_append_of_ne_nil _ hne]
    exact h
  have hnot := List.head?_dropWhile_not (fun b => decide (b ∈ cutset)) s
  rw [hhead] at hnot
  simpa using hnot

/-- The trimmed string does not end with a cutset byte. -/
theorem Trim_getLast_not_mem (s cutset : GoString) (b : Byte)
    (h : (strings.Trim s cutset).getLast? = some b) : b ∉ cutset := by
  unfold strings.Trim at h
  have hne : (s.dropWhile (fun b => decide (b ∈ cutset))).rdropWhile
      (fun b => decide (b ∈ cutset)) ≠ [] := by
    intro h0
    rw [h0] at h
    cases h
  have hlast := List.rdropWhile_last_not (fun b => decide (b ∈ cutset))
    (s.dropWhile (fun b => decide (b ∈ cutset))) hne
  rw [List.getLast?_eq_getLast _ hne] at h
  injection h with h
  rw [h] at hlast
  simpa using hlast

/-- C17, as stated, fails: for the payload `"\t/data/photos.zip\r\n"` written to the
photos request, the source path handed to the archive provider and recorded in the
registry is `"\t/data/photos.zip\r"`: it begins with a tab and ends with a carriage
return, both white space. -/
theorem C17_counterexample :
    (photosRequest.Write envAccept photosPendingHeap tabbedPayload).calls.head?
      = some (ExternalCall.NewArchiveFileSystem (9 :: (photosZip ++ [13]))) ∧
    ((photosRequest.Write envAccept photosPendingHeap tabbedPayload).heap 0).dirZipFileMap.lookup
      photos = some (9 :: (photosZip ++ [13])) ∧
    (9 :: (photosZip ++ [13])).head? = some 9 ∧ (9 : Byte) ∈ specWhitespace ∧
    (9 :: (photosZip ++ [13])).getLast? = some 13 ∧ (13 : Byte) ∈ specWhitespace := by
  decide

/-- C17, amended: for every payload written to an Armed request, the source path handed
to the archive provider and (on success) recorded in the registry is the payload with
its leading and its trailing run of space (32) and newline (10) bytes removed, so that
it neither begins nor ends with a space or a newline; no other byte is trimmed. -/
theorem C17_write_trims_space_and_newline (env : Env) (me : zipCreateFile) (heap : Heap)
    (nameBytes : GoString) (p : Ptr) (harmed : me.zfs = some p) :
    (me.Write env heap nameBytes).calls.head?
      = some (ExternalCall.NewArchiveFileSystem (strings.Trim nameBytes trimCutset)) ∧
    (∀ fs, env.NewArchiveFileSystem (strings.Trim nameBytes trimCutset) = some fs →
      env.ConnectorMount (heap p).Connector (Separator :: filepath.Base me.Basename) fs = OK →
      ((me.Write env heap nameBytes).heap p).dirZipFileMap.lookup me.Basename
        = some (strings.Trim nameBytes trimCutset)) ∧
    (∃ pre post : GoString, nameBytes = pre ++ strings.Trim nameBytes trimCutset ++ post ∧
      (∀ b ∈ pre, b = 10 ∨ b = 32) ∧ (∀ b ∈ post, b = 10 ∨ b = 32)) ∧
    (∀ b, (strings.Trim nameBytes trimCutset).head? = some b → b ≠ 10 ∧ b ≠ 32) ∧
    (∀ b, (strings.Trim nameBytes trimCutset).getLast? = some b → b ≠ 10 ∧ b ≠ 32) := by
  have hcut : ∀ b : Byte, b ∈ trimCutset ↔ b = 10 ∨ b = 32 := by
    intro b
    simp [trimCutset]
  refine ⟨?_, ?_, ?_, ?_, ?_⟩
  · cases hprov : env.NewArchiveFileSystem (strings.Trim nameBytes trimCutset) with
    | none => rw [Write_provider_fails env me heap nameBytes p harmed hprov]; rfl
    | some fs =>
      by_cases hconn :
          env.ConnectorMount (heap p).Connector (Separator :: filepath.Base me.Basename) fs = OK
      · rw [Write_commits env me heap nameBytes p fs harmed hprov hconn]; rfl
      · rw [Write_attach_fails env me heap nameBytes p fs harmed hprov hconn]; rfl
  · intro fs hprov hconn
    rw [Write_commits env me heap nameBytes p fs harmed hprov hconn]
    simp
  · obtain ⟨pre, post, hs, hpre, hpost⟩ := Trim_decompose nameBytes trimCutset
    exact ⟨pre, post, hs, fun b hb => (hcut b).mp (hpre b hb),
      fun b hb => (hcut b).mp (hpost b hb)⟩
  · intro b hb
    have hnot := Trim_head_not_mem nameBytes trimCutset b hb
    rw [hcut b] at hnot
    exact ⟨fun h => hnot (Or.inl h), fun h => hnot (Or.inr h)⟩
  · intro b hb
    have hnot := Trim_getLast_not_mem nameBytes trimCutset b hb
    rw [hcut b] at hnot
    exact ⟨fun h => hnot (Or.inl h), fun h => hnot (Or.inr h)⟩

/-- C17 amended, at the photos payload: the path handed to the provider is
`"/data/photos.zip"`, the payload without its final newline. -/
theorem C17_write_trims_space_and_newline_witness :
    photosRequest.zfs = some 0 ∧
    strings.Trim photosPayload trimCutset = photosZip ∧
    (photosRequest.Write envAccept photosPendingHeap photosPayload).calls.head?
      = some (ExternalCall.NewArchiveFileSystem (strings.Trim photosPayload trimCutset)) ∧
    ((photosRequest.Write envAccept photosPendingHeap photosPayload).heap 0).dirZipFileMap.lookup
      photosRequest.Basename = some (strings.Trim photosPayload trimCutset) :=
  have t := C17_write_trims_space_and_newline envAccept photosRequest photosPendingHeap
    photosPayload 0 (by decide)
  ⟨by decide, by decide, t.1, t.2.1 { id := 7 } (by decide) (by decide)⟩

/-! ## What each operation leaves in the store -/

/-- After a `Write`, the registry at any address is as before, or has lost the pending
marker of the basename, or has moreover gained the mount of the basename. -/
theorem Write_heap_at (env : Env) (me : zipCreateFile) (heap : Heap) (nameBytes : GoString)
    (q : Ptr) :
    (me.Write env heap nameBytes).heap q = heap q ∨
    (me.Write env heap nameBytes).heap q
      = { heap q with pendingZips := (heap q).pendingZips.erase me.Basename } ∨
    ∃ fs, (me.Write env heap nameBytes).heap q
      = { heap q with
          zips := (heap q).zips.insert me.Basename fs,
          dirZipFileMap :=
            (heap q).dirZipFileMap.insert me.Basename (strings.Trim nameBytes trimCutset),
          pendingZips := (heap q).pendingZips.erase me.Basename } := by
  cases hz : me.zfs with
  | none =>
    rw [Write_nil env me heap nameBytes hz]
    exact Or.inl rfl
  | some p =>
    cases hprov : env.NewArchiveFileSystem (strings.Trim nameBytes trimCutset) with
    | none =>
      rw [Write_provider_fails env me heap nameBytes p hz hprov]
      by_cases hq : q = p
      · subst hq
        exact Or.inr (Or.inl (by simp))
      · exact Or.inl (by simp [Function.update_noteq hq])
    | some fs =>
      by_cases hconn :
          env.ConnectorMount (heap p).Connector (Separator :: filepath.Base me.Basename) fs = OK
      · rw [Write_commits env me heap nameBytes p fs hz hprov hconn]
        by_cases hq : q = p
        · subst hq
          exact Or.inr (Or.inr ⟨fs, by simp⟩)
        · exact Or.inl (by simp [Function.update_noteq hq])
      · rw [Write_attach_fails env me heap nameBytes p fs hz hprov hconn]
        exact Or.inl rfl

/-- After an `Unlink`, the registry at any address is as before, or has lost the mount
of the basename of the path. -/
theorem Unlink_heap_at (p : Ptr) (heap : Heap) (name : GoString) (q : Ptr) :
    (MultiZipFs.Unlink p heap name).2 q = heap q ∨
    (MultiZipFs.Unlink p heap name).2 q
      = { heap q with
          zips := (heap q).zips.erase (filepath.Split name).2,
          dirZipFileMap := (heap q).dirZipFileMap.erase (filepath.Split name).2 } := by
  unfold MultiZipFs.Unlink
  by_cases hd : (filepath.Split name).1 = CONFIG_PREFIX
  · by_cases hm : ((heap p).zips.lookup (filepath.Split name).2).isSome = true
    · by_cases hq : q = p
      · subst hq
        exact Or.inr (by simp [hd, hm])
      · exact Or.inl (by simp [hd, hm, Function.update_noteq hq])
    · exact Or.inl (by simp [hd, hm])
  · exact Or.inl (by simp [hd])

/-- After a `Create`, the registry at any address is as before, or it is the receiver,
the path is under the control directory, and it has gained the pending marker of the
basename. -/
theorem Create_heap_at (p : Ptr) (heap : Heap) (name : GoString) (flags mode : Nat) (q : Ptr) :
    (MultiZipFs.Create p heap name flags mode).2 q = heap q ∨
    (q = p ∧ (filepath.Split name).1 = CONFIG_PREFIX ∧
      (MultiZipFs.Create p heap name flags mode).2 q
        = { heap q with
            pendingZips := (heap q).pendingZips.insert (filepath.Split name).2 true }) := by
  unfold MultiZipFs.Create
  by_cases hd : (filepath.Split name).1 = CONFIG_PREFIX
  · by_cases hq : q = p
    · subst hq
      exact Or.inr ⟨rfl, hd, by simp [hd]⟩
    · exact Or.inl (by simp [hd, Function.update_noteq hq])
  · exact Or.inl (by simp [hd])

/-- After a `Mount`, the three tables of the registry at any address are as before. -/
theorem Mount_heap_at (p : Ptr) (heap : Heap) (connector : Option FileSystemConnector)
    (q : Ptr) :
    ((MultiZipFs.Mount p heap connector).2 q).zips = (heap q).zips ∧
    ((MultiZipFs.Mount p heap connector).2 q).pendingZips = (heap q).pendingZips ∧
    ((MultiZipFs.Mount p heap connector).2 q).dirZipFileMap = (heap q).dirZipFileMap := by
  unfold MultiZipFs.Mount
  by_cases hq : q = p
  · subst hq
    simp
  · simp [Function.update_noteq hq]

/-! ## Invariants of sequential runs -/

/-- Presence of a key after `m[b] = v`. -/
theorem isSome_lookup_insert {V : Type} (k b : GoString) (v : V) (m : GoMap V) :
    (AList.lookup k (AList.insert b v m)).isSome
      = (decide (k = b) || (AList.lookup k m).isSome) := by
  by_cases h : k = b
  · subst h
    simp
  · simp [AList.lookup_insert_ne h, h]

/-- Presence of a key after the deletion of `b`. -/
theorem isSome_lookup_erase {V : Type} (k b : GoString) (m : GoMap V) :
    (AList.lookup k (AList.erase b m)).isSome
      = (!decide (k = b) && (AList.lookup k m).isSome) := by
  by_cases h : k = b
  · subst h
    simp
  · simp [AList.lookup_erase_ne h, h]

/-- The store after a step is the store that the operation of the step returns. -/
theorem step_heap (w : World) (op : Op) :
    (w.step op).heap =
      match op with
      | Op.Mount p connector => (MultiZipFs.Mount p w.heap connector).2
      | Op.Create p name flags mode => (MultiZipFs.Create p w.heap name flags mode).2
      | Op.Write env file nameBytes =>
        match w.files.get? file with
        | some me => (me.Write env w.heap nameBytes).heap
        | none => w.heap
      | Op.Unlink p name => (MultiZipFs.Unlink p w.heap name).2
      | Op.Open _ _ _ => w.heap
      | Op.GetAttr _ _ => w.heap
      | Op.OpenDir _ _ => w.heap := by
  cases op with
  | Mount p connector => rfl
  | Create p name flags mode =>
    simp only [World.step]
    split <;> rfl
  | Write env file nameBytes =>
    simp only [World.step]
    split <;> rfl
  | Unlink p name => rfl
  | Open p name flags => rfl
  | GetAttr p name => rfl
  | OpenDir p name => rfl

/-- Every step keeps the key sets of `zips` and `dirZipFileMap` equal. -/
theorem step_keys_agree (w : World) (op : Op)
    (h : ∀ q k, ((w.heap q).zips.lookup k).isSome = ((w.heap q).dirZipFileMap.lookup k).isSome) :
    ∀ q k, (((w.step op).heap q).zips.lookup k).isSome
      = (((w.step op).heap q).dirZipFileMap.lookup k).isSome := by
  intro q k
  rw [step_heap]
  cases op with
  | Mount p connector =>
    simp only []
    rw [(Mount_heap_at p w.heap connector q).1, (Mount_heap_at p w.heap connector q).2.2]
    exact h q k
  | Create p name flags mode =>
    simp only []
    rcases Create_heap_at p w.heap name flags mode q with hc | ⟨_, _, hc⟩
    · rw [hc]
      exact h q k
    · rw [hc]
      exact h q k
  | Write env file nameBytes =>
    simp only []
    cases hf : w.files.get? file with
    | none => exact h q k
    | some me =>
      simp only []
      rcases Write_heap_at env me w.heap nameBytes q with hw | hw | ⟨fs, hw⟩
      · rw [hw]
        exact h q k
      · rw [hw]
        exact h q k
      · rw [hw]
        simp only [isSome_lookup_insert, h q k]
  | Unlink p name =>
    simp only []
    rcases Unlink_heap_at p w.heap name q with hu | hu
    · rw [hu]
      exact h q k
    · rw [hu]
      simp only [isSome_lookup_erase, h q k]
  | Open p name flags => exact h q k
  | GetAttr p name => exact h q k
  | OpenDir p name => exact h q k

/-- Every run keeps the key sets of `zips` and `dirZipFileMap` equal. -/
theorem run_keys_agree (ops : List Op) (w : World)
    (h : ∀ q k, ((w.heap q).zips.lookup k).isSome = ((w.heap q).dirZipFileMap.lookup k).isSome) :
    ∀ q k, (((w.run ops).heap q).zips.lookup k).isSome
      = (((w.run ops).heap q).dirZipFileMap.lookup k).isSome := by
  induction ops generalizing w with
  | nil => exact h
  | cons op ops ih => exact ih (w.step op) (step_keys_agree w op h)

/-- A step that creates no mounted name keeps `zips` and `pendingZips` disjoint. -/
theorem step_tables_disjoint (w : World) (op : Op) (hg : op.createsUnmounted w = true)
    (h : ∀ q k, ¬ (((w.heap q).zips.lookup k).isSome = true ∧
      ((w.heap q).pendingZips.lookup k).isSome = true)) :
    ∀ q k, ¬ ((((w.step op).heap q).zips.lookup k).isSome = true ∧
      (((w.step op).heap q).pendingZips.lookup k).isSome = true) := by
  intro q k
  rw [step_heap]
  cases op with
  | Mount p connector =>
    simp only []
    rw [(Mount_heap_at p w.heap connector q).1, (Mount_heap_at p w.heap connector q).2.1]
    exact h q k
  | Create p name flags mode =>
    simp only []
    rcases Create_heap_at p w.heap name flags mode q with hc | ⟨hq, hd, hc⟩
    · rw [hc]
      exact h q k
    · rw [hc]
      subst hq
      have hun : ((w.heap q).zips.lookup (filepath.Split name).2).isSome = false := by
        simpa [Op.createsUnmounted, hd] using hg
      simp only [isSome_lookup_insert]
      by_cases hk : k = (filepath.Split name).2
      · subst hk
        simp [hun]
      · have := h q k
        simpa [hk] using this
  | Write env file nameBytes =>
    simp only []
    cases hf : w.files.get? file with
    | none => exact h q k
    | some me =>
      simp only []
      have hqk := h q k
      rcases Write_heap_at env me w.heap nameBytes q with hw | hw | ⟨fs, hw⟩
      · rw [hw]
        exact hqk
      · rw [hw]
        simp only [isSome_lookup_erase]
        by_cases hk : k = me.Basename
        · simp [hk]
        · simpa [hk] using hqk
      · rw [hw]
        simp only [isSome_lookup_erase, isSome_lookup_insert]
        by_cases hk : k = me.Basename
        · simp [hk]
        · simpa [hk] using hqk
  | Unlink p name =>
    simp only []
    have hqk := h q k
    rcases Unlink_heap_at p w.heap name q with hu | hu
    · rw [hu]
      exact hqk
    · rw [hu]
      simp only [isSome_lookup_erase]
      by_cases hk : k = (filepath.Split name).2
      · simp [hk]
      · simpa [hk] using hqk
  | Open p name flags => exact h q k
  | GetAttr p name => exact h q k
  | OpenDir p name => exact h q k

/-- A run in which no `Create` creates a mounted name keeps `zips` and `pendingZips`
disjoint. -/
theorem run_tables_disjoint (ops : List Op) (w : World)
    (hg : World.createsUnmounted w ops = true)
    (h : ∀ q k, ¬ (((w.heap q).zips.lookup k).isSome = true ∧
      ((w.heap q).pendingZips.lookup k).isSome = true)) :
    ∀ q k, ¬ ((((w.run ops).heap q).zips.lookup k).isSome = true ∧
      (((w.run ops).heap q).pendingZips.lookup k).isSome = true) := by
  induction ops generalizing w with
  | nil => exact h
  | cons op ops ih =>
    simp only [World.createsUnmounted, Bool.and_eq_true] at hg
    exact ih (w.step op) hg.2 (step_tables_disjoint w op hg.1 h)

/-- C14, as stated, fails: from the fresh registry the sequential run
`Create("config/photos")`, committed `Write`, `Create("config/photos")` reaches a state in
which `photos` is both in `zips` and in `pendingZips`. -/
theorem C14_counterexample :
    ((World.fresh.run remountRun).heap 0).zips.lookup photos = some { id := 7 } ∧
    ((World.fresh.run remountRun).heap 0).pendingZips.lookup photos = some true := by
  decide

/-- C14, amended: in every state reached from the fresh registry by a sequential run of
`Create`, `Write` (whatever the provider and the connector answer) and `Unlink`
operations in which no `Create` is applied to a name that is mounted at that moment, no
name is in `zips` and in `pendingZips` at the same time. -/
theorem C14_mounted_pending_disjoint (ops : List Op)
    (hguard : World.createsUnmounted World.fresh ops = true) :
    ∀ (p : Ptr) (k : GoString),
      ¬ ((((World.fresh.run ops).heap p).zips.lookup k).isSome = true ∧
        (((World.fresh.run ops).heap p).pendingZips.lookup k).isSome = true) := by
  apply run_tables_disjoint ops World.fresh hguard
  intro q k
  simp [World.fresh, emptyHeap, NewMultiZipFs]

/-- C14 amended, at the run that unlinks `photos` before creating it again: `photos`
ends pending and not mounted. -/
theorem C14_mounted_pending_disjoint_witness :
    World.createsUnmounted World.fresh unlinkRun = true ∧
    ((World.fresh.run unlinkRun).heap 0).pendingZips.lookup photos = some true ∧
    ¬ ((((World.fresh.run unlinkRun).heap 0).zips.lookup photos).isSome = true ∧
        (((World.fresh.run unlinkRun).heap 0).pendingZips.lookup photos).isSome = true) :=
  ⟨by decide, by decide, C14_mounted_pending_disjoint unlinkRun (by decide) 0 photos⟩

/-- C19: in every state reached from the fresh registry by a sequential run of `Mount`,
`Create`, `Write` (whatever the provider and the connector answer), `Unlink`, `Open`,
`GetAttr` and `OpenDir` operations, the key sets of `zips` and `dirZipFileMap` are equal;
consequently `Open("config/<name>")` with read-only flags returns OK exactly when
`<name>` is mounted. -/
theorem C19_zips_and_source_paths_agree (ops : List Op) :
    (∀ (p : Ptr) (k : GoString),
      (((World.fresh.run ops).heap p).zips.lookup k).isSome
        = (((World.fresh.run ops).heap p).dirZipFileMap.lookup k).isSome) ∧
    (∀ (p : Ptr) (name : GoString) (flags : Nat), Separator ∉ name →
      flags &&& O_ANYWRITE = 0 →
      ((((World.fresh.run ops).heap p).Open (CONFIG_PREFIX ++ name) flags).2 = OK
        ↔ (((World.fresh.run ops).heap p).zips.lookup name).isSome = true)) := by
  have hagree := run_keys_agree ops World.fresh (by
    intro q k
    simp [World.fresh, emptyHeap, NewMultiZipFs])
  refine ⟨hagree, ?_⟩
  intro p name flags hsep hro
  rw [hagree p name]
  have h23 : (ENOENT : Status) ≠ OK := by decide
  unfold MultiZipFs.Open
  rw [Split_config name hsep]
  cases hl : ((World.fresh.run ops).heap p).dirZipFileMap.lookup name with
  | none => simp [hro, hl, h23]
  | some orig => simp [hro, hl]

end zipfs
